import Mathlib

/-!
# Intel 8254 programmable interval timer emulation (`usr.sbin/bhyve/pit_8254.c`)

A shallow embedding of the counter state machine, the control-word decoder and
the port handler of `pit_8254.c`, followed by theorems about them.

Conventions of the embedding:

* `uint8_t`, `uint16_t`, `uint32_t` and `uint64_t` values are natural numbers,
  reduced with an explicit `%` wherever the C code converts to the narrower type;
* `int`, `time_t` and `suseconds_t` values are integers; the conversion of the
  signed nanosecond count to `uint64_t` is the reduction modulo `2 ^ 64`;
* every `gettimeofday` reading is an argument: `now` is the first reading a call
  takes and `now2` the second one (only `latch` on an unprogrammed counter takes
  two readings);
* `guest_hz`, a global of the surrounding program, is an argument;
* a failed `assert`, a division by zero and an array index outside `0..1` end
  the call with a `Fault` instead of a result.
-/

namespace Pit8254

/-! ## Constants -/

def TIMER_SEL_MASK : Nat := 0xc0
def TIMER_RW_MASK : Nat := 0x30
def TIMER_MODE_MASK : Nat := 0x0f
def TIMER_SEL_READBACK : Nat := 0xc0

/-- Modelled from the spec: the header `<machine/clock.h>` that defines this constant is
not part of the sources; access mode `0b00` in bits 5:4 is the latch command. -/
def TIMER_LATCH : Nat := 0x00

/-- Modelled from the spec: the header `<machine/clock.h>` that defines this constant is
not part of the sources; access mode `0b11` in bits 5:4 is 16-bit low/high access. -/
def TIMER_16BIT : Nat := 0x30

/-- Modelled from the spec: the header `<machine/clock.h>` that defines this constant is
not part of the sources; operating-mode code of the rate generator (mode 2). -/
def TIMER_RATEGEN : Nat := 0x04

/-- Modelled from the spec: the header `<machine/clock.h>` that defines this constant is
not part of the sources; operating-mode code of the square-wave generator (mode 3). -/
def TIMER_SQWAVE : Nat := 0x06

/-- Modelled from the spec: the header `<machine/clock.h>` that defines this constant is
not part of the sources; data port of channel 0, the first of the three data ports. -/
def TIMER_CNTR0 : Int := 0x40

/-- Modelled from the spec: the header `<machine/clock.h>` that defines this constant is
not part of the sources; data port of channel 2, the last of the three data ports. -/
def TIMER_CNTR2 : Int := 0x42

/-- Modelled from the spec: the header `<machine/clock.h>` that defines this constant is
not part of the sources; the write-only control port. -/
def TIMER_MODE : Int := 0x43

/-- `TIMER_DIV(freq, hz)`, in C `int` arithmetic (division truncates towards zero). -/
def TIMER_DIV (freq hz : Int) : Int := Int.tdiv (freq + Int.tdiv hz 2) hz

def PIT_8254_FREQ : Nat := 1193182

def nsecs_per_tick : Nat := 1000000000 / PIT_8254_FREQ

/-! ## Data model -/

structure timeval where
  tv_sec : Int
  tv_usec : Int
  deriving DecidableEq, Repr

/-- `struct counter`; the arrays `cr[2]` and `ol[2]` are the fields `cr0 cr1` and
`ol0 ol1`. -/
structure counter where
  tv : timeval
  initial : Nat
  cr0 : Nat
  cr1 : Nat
  ol0 : Nat
  ol1 : Nat
  crbyte : Int
  olbyte : Int
  deriving DecidableEq, Repr

/-- The static array `counter[3]` of the handler. -/
structure pit_state where
  c0 : counter
  c1 : counter
  c2 : counter
  deriving DecidableEq, Repr

/-- Element `counter[i]`; the handler only uses `i` in `0..2`. -/
def pit_state.get (s : pit_state) (i : Nat) : counter :=
  match i with
  | 0 => s.c0
  | 1 => s.c1
  | _ => s.c2

/-- The array with `counter[i]` replaced; the handler only uses `i` in `0..2`. -/
def pit_state.set (s : pit_state) (i : Nat) (c : counter) : pit_state :=
  match i with
  | 0 => { s with c0 := c }
  | 1 => { s with c1 := c }
  | _ => { s with c2 := c }

/-- Ways a call can end without returning. -/
inductive Fault where
  | assert_failed
  | div_by_zero
  | index_out_of_range
  deriving DecidableEq, Repr

/-- What a returning call of the handler leaves: the return value, the contents of
`*eax` and the three counters. -/
structure io_result where
  ret : Int
  eax : Nat
  counter : pit_state
  deriving DecidableEq, Repr

/-! ## Time arithmetic -/

def timevalfix (t1 : timeval) : timeval :=
  let t1 : timeval :=
    if t1.tv_usec < 0 then
      { tv_sec := t1.tv_sec - 1, tv_usec := t1.tv_usec + 1000000 }
    else t1
  if t1.tv_usec ≥ 1000000 then
    { tv_sec := t1.tv_sec + 1, tv_usec := t1.tv_usec - 1000000 }
  else t1

def timevalsub (t1 t2 : timeval) : timeval :=
  timevalfix { tv_sec := t1.tv_sec - t2.tv_sec, tv_usec := t1.tv_usec - t2.tv_usec }

/-- The `uint64_t delta_nsecs` of `latch`, from the reading `t` and the load instant `tv`. -/
def delta_nsecs (t tv : timeval) : Nat :=
  let tv2 := timevalsub t tv
  ((tv2.tv_sec * 1000000000 + tv2.tv_usec * 1000) % 2 ^ 64).toNat

/-- The `uint64_t delta_ticks` of `latch`. -/
def delta_ticks (t tv : timeval) : Nat :=
  delta_nsecs t tv / nsecs_per_tick

/-- The `uint16_t lval` of `latch`: `c->initial - delta_ticks % c->initial`, computed in
`uint64_t` and truncated to 16 bits. Only used with `initial ≠ 0`. -/
def lval (initial ticks : Nat) : Nat :=
  (initial + 2 ^ 64 - ticks % initial) % 2 ^ 64 % 2 ^ 16

/-! ## The counter -/

/-- The function `latch`. `now` is the first `gettimeofday` reading of the call and
`now2` the second, which only a call that installs the default divisor takes. -/
def latch (guest_hz : Int) (now now2 : timeval) (c : counter) : Except Fault counter :=
  if c.olbyte ≠ 0 then .ok c
  else if c.initial = 0 ∨ c.initial = 1 then
    if guest_hz = 0 then .error .div_by_zero
    else
      let c1 : counter :=
        { c with initial := (TIMER_DIV PIT_8254_FREQ guest_hz % 2 ^ 16).toNat, tv := now }
      if c1.initial = 0 then .error .div_by_zero
      else
        let v := lval c1.initial (delta_ticks now2 c1.tv)
        .ok { c1 with olbyte := 2, ol1 := v % 256, ol0 := (v >>> 8) % 256 }
  else
    let v := lval c.initial (delta_ticks now c.tv)
    .ok { c with olbyte := 2, ol1 := v % 256, ol0 := (v >>> 8) % 256 }

/-! ## The port handler -/

/-- The function `pit_8254_handler` on the three counters `s`. `in_` is the C argument
`in` (non-zero for a read), `eax` the contents of `*eax` at the call. -/
def pit_8254_handler (guest_hz : Int) (now now2 : timeval) (s : pit_state)
    (in_ port bytes : Int) (eax : Nat) : Except Fault io_result :=
  if bytes ≠ 1 then .ok ⟨-1, eax, s⟩
  else
    let val := eax % 256
    if port = TIMER_MODE then
      if in_ ≠ 0 then .error .assert_failed
      else
        let sel := val &&& TIMER_SEL_MASK
        let rw := val &&& TIMER_RW_MASK
        let mode := val &&& TIMER_MODE_MASK
        if sel = TIMER_SEL_READBACK then .ok ⟨-1, eax, s⟩
        else if rw ≠ TIMER_LATCH ∧ rw ≠ TIMER_16BIT then .ok ⟨-1, eax, s⟩
        else if rw ≠ TIMER_LATCH ∧ (mode ≠ TIMER_RATEGEN ∧ mode ≠ TIMER_SQWAVE) then
          .ok ⟨-1, eax, s⟩
        else
          let i := sel >>> 6
          let c := s.get i
          if rw = TIMER_LATCH then
            match latch guest_hz now now2 c with
            | .error e => .error e
            | .ok c1 => .ok ⟨0, eax, s.set i c1⟩
          else .ok ⟨0, eax, s.set i { c with olbyte := 0 }⟩
    else if ¬ (port ≥ TIMER_CNTR0 ∧ port ≤ TIMER_CNTR2) then .error .assert_failed
    else
      let i := (port - TIMER_CNTR0).toNat
      let c := s.get i
      if in_ ≠ 0 then
        let c1 : counter := if c.olbyte = 0 then { c with olbyte := 2 } else c
        let c2 : counter := { c1 with olbyte := c1.olbyte - 1 }
        if c2.olbyte = 0 then .ok ⟨0, c2.ol0, s.set i c2⟩
        else if c2.olbyte = 1 then .ok ⟨0, c2.ol1, s.set i c2⟩
        else .error .index_out_of_range
      else
        if c.crbyte ≠ 0 ∧ c.crbyte ≠ 1 then .error .index_out_of_range
        else
          let c1 : counter :=
            if c.crbyte = 0 then { c with cr0 := eax % 256, crbyte := c.crbyte + 1 }
            else { c with cr1 := eax % 256, crbyte := c.crbyte + 1 }
          if c1.crbyte = 2 then
            let c2 : counter :=
              { c1 with crbyte := 0, initial := (c1.cr0 ||| (c1.cr1 % 2 ^ 16) <<< 8) % 2 ^ 16 }
            let c3 : counter := if c2.initial = 0 then { c2 with initial := 0xffff } else c2
            .ok ⟨0, eax, s.set i { c3 with tv := now }⟩
          else .ok ⟨0, eax, s.set i c1⟩

/-! ## Specification-side notions -/

/-- A normalised `timeval`: the microsecond part lies in `0 .. 999999`. -/
def timeval.normalised (t : timeval) : Prop :=
  0 ≤ t.tv_usec ∧ t.tv_usec < 1000000

/-- Chronological order on `timeval`s: seconds first, then microseconds. -/
def timeval.le (a b : timeval) : Prop :=
  a.tv_sec < b.tv_sec ∨ (a.tv_sec = b.tv_sec ∧ a.tv_usec ≤ b.tv_usec)

instance (t : timeval) : Decidable t.normalised :=
  inferInstanceAs (Decidable (0 ≤ t.tv_usec ∧ t.tv_usec < 1000000))

instance (a b : timeval) : Decidable (a.le b) :=
  inferInstanceAs (Decidable (a.tv_sec < b.tv_sec ∨ (a.tv_sec = b.tv_sec ∧ a.tv_usec ≤ b.tv_usec)))

/-- Microseconds from `tv` to `t`, read off the result of `timevalsub`. -/
def elapsed_usecs (t tv : timeval) : Int :=
  (timevalsub t tv).tv_sec * 1000000 + (timevalsub t tv).tv_usec

/-- The port number of the data port of channel `i`. -/
def data_port (i : Nat) : Int := TIMER_CNTR0 + i

/-- The index invariant of one counter: `crbyte` is 0 or 1 and `olbyte` is 0, 1 or 2. -/
def counter.wf (c : counter) : Prop :=
  (c.crbyte = 0 ∨ c.crbyte = 1) ∧ (c.olbyte = 0 ∨ c.olbyte = 1 ∨ c.olbyte = 2)

instance (c : counter) : Decidable c.wf :=
  inferInstanceAs (Decidable
    ((c.crbyte = 0 ∨ c.crbyte = 1) ∧ (c.olbyte = 0 ∨ c.olbyte = 1 ∨ c.olbyte = 2)))

/-- The index invariant of the three counters. -/
def pit_state.wf (s : pit_state) : Prop :=
  s.c0.wf ∧ s.c1.wf ∧ s.c2.wf

instance (s : pit_state) : Decidable s.wf :=
  inferInstanceAs (Decidable (s.c0.wf ∧ s.c1.wf ∧ s.c2.wf))

/-- An access with a legal port and direction: a data port in either direction, or a
write to the control port. -/
def legal_access (in_ port : Int) : Prop :=
  (0x40 ≤ port ∧ port ≤ 0x42) ∨ (port = 0x43 ∧ in_ = 0)

instance (in_ port : Int) : Decidable (legal_access in_ port) :=
  inferInstanceAs (Decidable ((0x40 ≤ port ∧ port ≤ 0x42) ∨ (port = 0x43 ∧ in_ = 0)))

/-- The accept condition of the handler as the specification words it: a one-byte access
to a data port, or to the control port with a control byte `val` that does not select
read-back and is either a latch command or a 16-bit access in rate-generator or
square-wave mode. -/
def accepted (port bytes : Int) (val : Nat) : Prop :=
  bytes = 1 ∧
    ((0x40 ≤ port ∧ port ≤ 0x42) ∨
      (port = 0x43 ∧ val &&& 0xc0 ≠ 0xc0 ∧
        (val &&& 0x30 = 0x00 ∨
          (val &&& 0x30 = 0x30 ∧ (val &&& 0x0f = 0x04 ∨ val &&& 0x0f = 0x06)))))

instance (port bytes : Int) (val : Nat) : Decidable (accepted port bytes val) :=
  inferInstanceAs (Decidable (bytes = 1 ∧
    ((0x40 ≤ port ∧ port ≤ 0x42) ∨
      (port = 0x43 ∧ val &&& 0xc0 ≠ 0xc0 ∧
        (val &&& 0x30 = 0x00 ∨
          (val &&& 0x30 = 0x30 ∧ (val &&& 0x0f = 0x04 ∨ val &&& 0x0f = 0x06)))))))

/-! ## Example data -/

/-- A counter that has never been programmed nor latched (the zero-initialised
`static struct counter`). -/
def counter_zero : counter :=
  { tv := ⟨0, 0⟩, initial := 0, cr0 := 0, cr1 := 0, ol0 := 0, ol1 := 0, crbyte := 0, olbyte := 0 }

/-- The zero-initialised array `counter[3]`. -/
def pit_zero : pit_state := ⟨counter_zero, counter_zero, counter_zero⟩

/-- A counter programmed with divisor 1193 at time 10.5 s, no latch pending. -/
def counter_1193 : counter :=
  { tv := ⟨10, 500000⟩, initial := 1193, cr0 := 0xA9, cr1 := 0x04, ol0 := 0, ol1 := 0,
    crbyte := 0, olbyte := 0 }

/-- The device after channel 0 has been programmed with divisor 1193 at time 10.5 s
(data writes of 0xA9 and 0x04 to port 0x40 of the zero-initialised device). -/
def pit_1193 : pit_state := ⟨counter_1193, counter_zero, counter_zero⟩

/-- A counter on which `latch` has just captured the count 0x0255 of divisor 1193. -/
def counter_latched : counter :=
  { counter_1193 with olbyte := 2, ol1 := 0x55, ol0 := 0x02 }

/-- The device with the count 0x0255 latched on channel 0. -/
def pit_latched : pit_state := ⟨counter_latched, counter_zero, counter_zero⟩

/-! ## Reachable states -/

/-- The states of the three counters that the device can be in: the zero-initialised
static array, and every state left by a call of the handler that returns, made on such
a state with any arguments and any clock readings. -/
inductive reachable (guest_hz : Int) : pit_state → Prop where
  | init : reachable guest_hz pit_zero
  | step (s : pit_state) (now now2 : timeval) (in_ port bytes : Int) (eax : Nat)
      (r : io_result) :
      reachable guest_hz s →
      pit_8254_handler guest_hz now now2 s in_ port bytes eax = .ok r →
      reachable guest_hz r.counter

/-! ## Auxiliary lemmas -/

theorem timevalfix_usecs (t : timeval) :
    (timevalfix t).tv_sec * 1000000 + (timevalfix t).tv_usec
      = t.tv_sec * 1000000 + t.tv_usec := by
  unfold timevalfix
  by_cases h1 : t.tv_usec < 0
  · by_cases h2 : t.tv_usec + 1000000 ≥ 1000000
    · simp only [h1, h2, if_true]; omega
    · simp only [h1, h2, if_true, if_false]; omega
  · by_cases h2 : t.tv_usec ≥ 1000000
    · simp only [h1, h2, if_true, if_false]; omega
    · simp only [h1, h2, if_false]

theorem elapsed_usecs_eq (t tv : timeval) :
    elapsed_usecs t tv
      = (t.tv_sec - tv.tv_sec) * 1000000 + (t.tv_usec - tv.tv_usec) := by
  unfold elapsed_usecs timevalsub
  rw [timevalfix_usecs]

theorem elapsed_usecs_nonneg {t tv : timeval} (ht : t.normalised) (htv : tv.normalised)
    (hle : tv.le t) : 0 ≤ elapsed_usecs t tv := by
  rw [elapsed_usecs_eq]
  unfold timeval.normalised at ht htv
  unfold timeval.le at hle
  omega

theorem delta_nsecs_eq (t tv : timeval) :
    delta_nsecs t tv = ((1000 * elapsed_usecs t tv) % 2 ^ 64).toNat := by
  unfold delta_nsecs elapsed_usecs
  have h : (timevalsub t tv).tv_sec * 1000000000 + (timevalsub t tv).tv_usec * 1000
      = 1000 * ((timevalsub t tv).tv_sec * 1000000 + (timevalsub t tv).tv_usec) := by ring
  simp only [h]

theorem delta_nsecs_of_fits {t tv : timeval} (h0 : 0 ≤ elapsed_usecs t tv)
    (h1 : 1000 * elapsed_usecs t tv < 2 ^ 64) :
    delta_nsecs t tv = (1000 * elapsed_usecs t tv).toNat := by
  rw [delta_nsecs_eq, Int.emod_eq_of_lt (by omega) h1]

theorem lval_eq {D : Nat} (hD : 0 < D) (h16 : D < 65536) (t : Nat) :
    lval D t = D - t % D := by
  unfold lval
  have h := Nat.mod_lt t hD
  omega

theorem lval_pos_le {D : Nat} (hD : 0 < D) (h16 : D < 65536) (t : Nat) :
    1 ≤ lval D t ∧ lval D t ≤ D := by
  rw [lval_eq hD h16]
  have h := Nat.mod_lt t hD
  omega

theorem latch_programmed (guest_hz : Int) (now now2 : timeval) (c : counter)
    (hol : c.olbyte = 0) (hD : 2 ≤ c.initial) :
    latch guest_hz now now2 c
      = .ok { c with olbyte := 2,
                     ol1 := lval c.initial (delta_ticks now c.tv) % 256,
                     ol0 := (lval c.initial (delta_ticks now c.tv) >>> 8) % 256 } := by
  unfold latch
  have h0 : ¬ (c.initial = 0 ∨ c.initial = 1) := by omega
  simp only [hol, h0, ne_eq, not_true_eq_false, if_false]

theorem get_set_same (s : pit_state) (i : Nat) (c : counter) :
    (s.set i c).get i = c := by
  unfold pit_state.set pit_state.get
  split <;> simp

theorem get_set_other (s : pit_state) {i j : Nat} (c : counter) (hi : i < 3) (hj : j < 3)
    (hij : j ≠ i) : (s.set i c).get j = s.get j := by
  interval_cases i <;> interval_cases j <;> simp_all [pit_state.set, pit_state.get]

theorem set_set (s : pit_state) (i : Nat) (c d : counter) :
    (s.set i c).set i d = s.set i d := by
  unfold pit_state.set
  split <;> simp

theorem set_get (s : pit_state) (i : Nat) : s.set i (s.get i) = s := by
  unfold pit_state.set pit_state.get
  split <;> simp

theorem handler_write_first (guest_hz : Int) (now now2 : timeval) (s : pit_state)
    (i : Nat) (hi : i < 3) (eax : Nat) (hcr : (s.get i).crbyte = 0) :
    pit_8254_handler guest_hz now now2 s 0 (data_port i) 1 eax
      = .ok ⟨0, eax, s.set i { s.get i with cr0 := eax % 256, crbyte := 1 }⟩ := by
  have hp : (data_port i - TIMER_CNTR0).toNat = i := by simp [data_port]
  have h1 : data_port i ≠ TIMER_MODE := by simp [data_port, TIMER_CNTR0, TIMER_MODE]; omega
  have h2 : data_port i ≥ TIMER_CNTR0 ∧ data_port i ≤ TIMER_CNTR2 := by
    simp [data_port, TIMER_CNTR0, TIMER_CNTR2]; omega
  unfold pit_8254_handler
  simp [h1, h2, hp, hcr]

theorem handler_write_second (guest_hz : Int) (now now2 : timeval) (s : pit_state)
    (i : Nat) (hi : i < 3) (eax : Nat) (hcr : (s.get i).crbyte = 1) :
    pit_8254_handler guest_hz now now2 s 0 (data_port i) 1 eax
      = .ok ⟨0, eax, s.set i
          { s.get i with
            cr1 := eax % 256
            crbyte := 0
            initial :=
              if ((s.get i).cr0 ||| (eax % 256 % 2 ^ 16) <<< 8) % 2 ^ 16 = 0 then 0xffff
              else ((s.get i).cr0 ||| (eax % 256 % 2 ^ 16) <<< 8) % 2 ^ 16
            tv := now }⟩ := by
  have hp : (data_port i - TIMER_CNTR0).toNat = i := by simp [data_port]
  have h1 : data_port i ≠ TIMER_MODE := by simp [data_port, TIMER_CNTR0, TIMER_MODE]; omega
  have h2 : data_port i ≥ TIMER_CNTR0 ∧ data_port i ≤ TIMER_CNTR2 := by
    simp [data_port, TIMER_CNTR0, TIMER_CNTR2]; omega
  unfold pit_8254_handler
  simp only [h1, h2, hp, hcr]
  simp
  split <;> simp_all

theorem handler_read (guest_hz : Int) (now now2 : timeval) (s : pit_state)
    (i : Nat) (hi : i < 3) (in_ : Int) (hin : in_ ≠ 0) (eax : Nat) :
    pit_8254_handler guest_hz now now2 s in_ (data_port i) 1 eax
      = if (s.get i).olbyte = 0 ∨ (s.get i).olbyte = 2 then
          .ok ⟨0, (s.get i).ol1, s.set i { s.get i with olbyte := 1 }⟩
        else if (s.get i).olbyte = 1 then
          .ok ⟨0, (s.get i).ol0, s.set i { s.get i with olbyte := 0 }⟩
        else .error .index_out_of_range := by
  have hp : (data_port i - TIMER_CNTR0).toNat = i := by simp [data_port]
  have h1 : data_port i ≠ TIMER_MODE := by simp [data_port, TIMER_CNTR0, TIMER_MODE]; omega
  have h2 : data_port i ≥ TIMER_CNTR0 ∧ data_port i ≤ TIMER_CNTR2 := by
    simp [data_port, TIMER_CNTR0, TIMER_CNTR2]; omega
  unfold pit_8254_handler
  simp only [h1, h2, hp, hin, ne_eq, not_true_eq_false, not_false_eq_true, and_self,
    if_true, if_false]
  generalize s.get i = c
  by_cases h0 : c.olbyte = 0
  · simp [h0]
  · by_cases h2 : c.olbyte = 2
    · simp [h2]
    · by_cases h3 : c.olbyte = 1
      · simp [h3]
      · have h4 : ¬ (c.olbyte - 1 = 0) := by omega
        have h5 : ¬ (c.olbyte - 1 = 1) := by omega
        simp [h0, h2, h3, h4, h5]

theorem handler_ctl_program (guest_hz : Int) (now now2 : timeval) (s : pit_state)
    (i : Nat) (hi : i < 3) (eax : Nat)
    (hsel : eax % 256 &&& TIMER_SEL_MASK = i <<< 6)
    (hrw : eax % 256 &&& TIMER_RW_MASK = TIMER_16BIT)
    (hmode : eax % 256 &&& TIMER_MODE_MASK = TIMER_RATEGEN ∨
      eax % 256 &&& TIMER_MODE_MASK = TIMER_SQWAVE) :
    pit_8254_handler guest_hz now now2 s 0 TIMER_MODE 1 eax
      = .ok ⟨0, eax, s.set i { s.get i with olbyte := 0 }⟩ := by
  have h1 : i <<< 6 ≠ TIMER_SEL_READBACK := by
    interval_cases i <;> decide
  have h2 : (i <<< 6) >>> 6 = i := by
    interval_cases i <;> decide
  have h3 : TIMER_16BIT ≠ TIMER_LATCH := by decide
  have h4 : ¬ (¬ eax % 256 &&& TIMER_MODE_MASK = TIMER_RATEGEN ∧
      ¬ eax % 256 &&& TIMER_MODE_MASK = TIMER_SQWAVE) := by tauto
  unfold pit_8254_handler
  simp only [hsel, hrw, h1, h2, h3, h4, ne_eq, not_true_eq_false, not_false_eq_true,
    and_false, and_true, if_true, if_false]

theorem handler_ctl_latch (guest_hz : Int) (now now2 : timeval) (s : pit_state)
    (i : Nat) (hi : i < 3) (eax : Nat)
    (hsel : eax % 256 &&& TIMER_SEL_MASK = i <<< 6)
    (hrw : eax % 256 &&& TIMER_RW_MASK = TIMER_LATCH) :
    pit_8254_handler guest_hz now now2 s 0 TIMER_MODE 1 eax
      = match latch guest_hz now now2 (s.get i) with
        | .error e => .error e
        | .ok c1 => .ok ⟨0, eax, s.set i c1⟩ := by
  have h1 : i <<< 6 ≠ TIMER_SEL_READBACK := by
    interval_cases i <;> decide
  have h2 : (i <<< 6) >>> 6 = i := by
    interval_cases i <;> decide
  unfold pit_8254_handler
  simp only [hsel, hrw, h1, h2, ne_eq, not_true_eq_false, not_false_eq_true,
    false_and, and_false, and_true, if_true, if_false]

theorem or_shl8 (lo hi : Nat) (h : lo < 256) : lo ||| hi <<< 8 = lo + 256 * hi := by
  have h1 := Nat.mul_add_lt_is_or (show lo < 2 ^ 8 by simpa using h) hi
  rw [Nat.shiftLeft_eq, Nat.or_comm, Nat.mul_comm hi, ← h1]
  omega

theorem bytes_or (v : Nat) (h : v < 65536) :
    v % 256 ||| ((v >>> 8) % 256) <<< 8 = v := by
  rw [or_shl8 _ _ (by omega), Nat.shiftRight_eq_div_pow]
  omega

theorem combine_bytes (D : Nat) (h : D < 65536) :
    (D % 256 % 256 ||| (D / 256 % 256 % 2 ^ 16) <<< 8) % 2 ^ 16 = D := by
  rw [or_shl8 _ _ (by omega)]
  omega

theorem latch_pending (guest_hz : Int) (now now2 : timeval) (c : counter)
    (hol : c.olbyte ≠ 0) : latch guest_hz now now2 c = .ok c := by
  unfold latch
  simp only [hol, ne_eq, not_false_eq_true, if_true]

theorem latch_unprogrammed (guest_hz : Int) (now now2 : timeval) (c : counter)
    (hol : c.olbyte = 0) (hD : c.initial = 0 ∨ c.initial = 1) (hhz : guest_hz ≠ 0)
    (hdiv : (TIMER_DIV PIT_8254_FREQ guest_hz % 2 ^ 16).toNat ≠ 0) :
    latch guest_hz now now2 c
      = .ok { c with
          initial := (TIMER_DIV PIT_8254_FREQ guest_hz % 2 ^ 16).toNat
          tv := now
          olbyte := 2
          ol1 := lval (TIMER_DIV PIT_8254_FREQ guest_hz % 2 ^ 16).toNat
                   (delta_ticks now2 now) % 256
          ol0 := (lval (TIMER_DIV PIT_8254_FREQ guest_hz % 2 ^ 16).toNat
                   (delta_ticks now2 now) >>> 8) % 256 } := by
  unfold latch
  simp only [hol, hD, hhz, hdiv, ne_eq, not_true_eq_false, if_true, if_false]

theorem latch_returns (guest_hz : Int) (now now2 : timeval) (c : counter)
    (hol : c.olbyte = 0)
    (hdiv : 2 ≤ c.initial ∨
      (guest_hz ≠ 0 ∧ (TIMER_DIV PIT_8254_FREQ guest_hz % 2 ^ 16).toNat ≠ 0)) :
    ∃ c1 : counter, latch guest_hz now now2 c = .ok c1 ∧ c1.olbyte = 2 ∧
      c1.crbyte = c.crbyte := by
  by_cases h : 2 ≤ c.initial
  · exact ⟨_, latch_programmed guest_hz now now2 c hol h, rfl, rfl⟩
  · rcases hdiv with h2 | ⟨h2, h3⟩
    · exact absurd h2 h
    · exact ⟨_, latch_unprogrammed guest_hz now now2 c hol (by omega) h2 h3, rfl, rfl⟩

set_option maxRecDepth 100000

theorem sel_cases : ∀ v < 256, v &&& 0xc0 = 0xc0 ∨ ∃ i < 3, v &&& 0xc0 = i <<< 6 := by
  decide

theorem handler_reject (guest_hz : Int) (now now2 : timeval) (s : pit_state)
    (in_ port bytes : Int) (eax : Nat) (hl : legal_access in_ port)
    (h : ¬ accepted port bytes (eax % 256)) :
    pit_8254_handler guest_hz now now2 s in_ port bytes eax = .ok ⟨-1, eax, s⟩ := by
  unfold pit_8254_handler
  by_cases hb : bytes = 1
  · unfold accepted at h
    unfold legal_access at hl
    rcases hl with hl | ⟨hp, hin⟩
    · exact absurd ⟨hb, Or.inl hl⟩ h
    · simp only [hb, hp, hin, TIMER_MODE, TIMER_SEL_MASK, TIMER_RW_MASK, TIMER_MODE_MASK,
        TIMER_SEL_READBACK, TIMER_LATCH, TIMER_16BIT, TIMER_RATEGEN, TIMER_SQWAVE]
      by_cases h3 : eax % 256 &&& 0xc0 = 0xc0
      · simp [h3]
      · by_cases h4 : eax % 256 &&& 0x30 = 0
        · exact absurd ⟨hb, Or.inr ⟨hp, h3, Or.inl h4⟩⟩ h
        · by_cases h5 : eax % 256 &&& 0x30 = 0x30
          · by_cases h6 : eax % 256 &&& 0x0f = 0x04 ∨ eax % 256 &&& 0x0f = 0x06
            · exact absurd ⟨hb, Or.inr ⟨hp, h3, Or.inr ⟨h5, h6⟩⟩⟩ h
            · simp only [not_or] at h6
              simp [h3, h4, h5, h6]
          · simp [h3, h4, h5]
  · simp [hb]

theorem data_port_of (port : Int) (h : 0x40 ≤ port ∧ port ≤ 0x42) :
    ∃ i < 3, port = data_port i := by
  refine ⟨(port - 0x40).toNat, by omega, ?_⟩
  unfold data_port TIMER_CNTR0
  omega

theorem ctl_latch_ret (guest_hz : Int) (now now2 : timeval) (s : pit_state) (eax : Nat)
    (hsel : eax % 256 &&& 0xc0 ≠ 0xc0) (hrw : eax % 256 &&& 0x30 = 0x00) :
    ∃ i < 3, eax % 256 &&& 0xc0 = i <<< 6 ∧
      pit_8254_handler guest_hz now now2 s 0 0x43 1 eax
        = match latch guest_hz now now2 (s.get i) with
          | .error e => .error e
          | .ok c1 => .ok ⟨0, eax, s.set i c1⟩ := by
  rcases sel_cases (eax % 256) (Nat.mod_lt _ (by decide)) with h | ⟨i, hi, h⟩
  · exact absurd h hsel
  · exact ⟨i, hi, h, handler_ctl_latch guest_hz now now2 s i hi eax h hrw⟩

theorem ctl_program_ret (guest_hz : Int) (now now2 : timeval) (s : pit_state) (eax : Nat)
    (hsel : eax % 256 &&& 0xc0 ≠ 0xc0) (hrw : eax % 256 &&& 0x30 = 0x30)
    (hmode : eax % 256 &&& 0x0f = 0x04 ∨ eax % 256 &&& 0x0f = 0x06) :
    ∃ i < 3, eax % 256 &&& 0xc0 = i <<< 6 ∧
      pit_8254_handler guest_hz now now2 s 0 0x43 1 eax
        = .ok ⟨0, eax, s.set i { s.get i with olbyte := 0 }⟩ := by
  rcases sel_cases (eax % 256) (Nat.mod_lt _ (by decide)) with h | ⟨i, hi, h⟩
  · exact absurd h hsel
  · exact ⟨i, hi, h, handler_ctl_program guest_hz now now2 s i hi eax h hrw hmode⟩

theorem handler_ctl_read (guest_hz : Int) (now now2 : timeval) (s : pit_state)
    (in_ : Int) (hin : in_ ≠ 0) (eax : Nat) :
    pit_8254_handler guest_hz now now2 s in_ 0x43 1 eax = .error .assert_failed := by
  unfold pit_8254_handler
  simp [TIMER_MODE, hin]

theorem handler_write_bad (guest_hz : Int) (now now2 : timeval) (s : pit_state)
    (i : Nat) (hi : i < 3) (eax : Nat) (hc0 : (s.get i).crbyte ≠ 0)
    (hc1 : (s.get i).crbyte ≠ 1) :
    pit_8254_handler guest_hz now now2 s 0 (data_port i) 1 eax
      = .error .index_out_of_range := by
  have hp : (data_port i - TIMER_CNTR0).toNat = i := by simp [data_port]
  have h1 : data_port i ≠ TIMER_MODE := by simp [data_port, TIMER_CNTR0, TIMER_MODE]; omega
  have h2 : data_port i ≥ TIMER_CNTR0 ∧ data_port i ≤ TIMER_CNTR2 := by
    simp [data_port, TIMER_CNTR0, TIMER_CNTR2]; omega
  unfold pit_8254_handler
  simp [h1, h2, hp, hc0, hc1]

theorem handler_accept_ret (guest_hz : Int) (now now2 : timeval) (s : pit_state)
    (in_ port bytes : Int) (eax : Nat)
    (h : accepted port bytes (eax % 256)) (r : io_result)
    (hr : pit_8254_handler guest_hz now now2 s in_ port bytes eax = .ok r) : r.ret = 0 := by
  unfold accepted at h
  obtain ⟨hb, h⟩ := h
  subst hb
  rcases h with hp | ⟨hp, hsel, hrw⟩
  · obtain ⟨i, hi, rfl⟩ := data_port_of port hp
    by_cases hin : in_ = 0
    · subst hin
      by_cases h0 : (s.get i).crbyte = 0
      · rw [handler_write_first guest_hz now now2 s i hi eax h0] at hr
        cases hr; rfl
      · by_cases h1 : (s.get i).crbyte = 1
        · rw [handler_write_second guest_hz now now2 s i hi eax h1] at hr
          cases hr; rfl
        · rw [handler_write_bad guest_hz now now2 s i hi eax h0 h1] at hr
          cases hr
    · rw [handler_read guest_hz now now2 s i hi in_ hin eax] at hr
      split_ifs at hr <;> cases hr <;> rfl
  · subst hp
    by_cases hin : in_ = 0
    · subst hin
      rcases hrw with hrw | ⟨hrw, hmode⟩
      · obtain ⟨i, _, _, e⟩ := ctl_latch_ret guest_hz now now2 s eax hsel hrw
        rw [e] at hr
        split at hr <;> cases hr
        rfl
      · obtain ⟨i, _, _, e⟩ := ctl_program_ret guest_hz now now2 s eax hsel hrw hmode
        rw [e] at hr
        cases hr; rfl
    · rw [handler_ctl_read guest_hz now now2 s in_ hin eax] at hr
      cases hr

theorem get_wf (s : pit_state) (hs : s.wf) (i : Nat) : (s.get i).wf := by
  unfold pit_state.wf at hs
  unfold pit_state.get
  split
  · exact hs.1
  · exact hs.2.1
  · exact hs.2.2

theorem handler_accept_returns (guest_hz : Int) (now now2 : timeval) (s : pit_state)
    (in_ port bytes : Int) (eax : Nat) (hl : legal_access in_ port)
    (h : accepted port bytes (eax % 256)) (hs : s.wf) (hhz : guest_hz ≠ 0)
    (hdiv : (TIMER_DIV PIT_8254_FREQ guest_hz % 2 ^ 16).toNat ≠ 0) :
    ∃ r : io_result,
      pit_8254_handler guest_hz now now2 s in_ port bytes eax = .ok r ∧ r.ret = 0 := by
  unfold accepted at h
  unfold legal_access at hl
  obtain ⟨hb, h⟩ := h
  subst hb
  rcases h with hp | ⟨hp, hsel, hrw⟩
  · obtain ⟨i, hi, rfl⟩ := data_port_of port hp
    have hw := get_wf s hs i
    unfold counter.wf at hw
    by_cases hin : in_ = 0
    · subst hin
      rcases hw.1 with h0 | h1
      · exact ⟨_, handler_write_first guest_hz now now2 s i hi eax h0, rfl⟩
      · exact ⟨_, handler_write_second guest_hz now now2 s i hi eax h1, rfl⟩
    · rw [handler_read guest_hz now now2 s i hi in_ hin eax]
      rcases hw.2 with h0 | h1 | h2
      · simp [h0]
      · simp [h1]
      · simp [h2]
  · subst hp
    have hin : in_ = 0 := by omega
    subst hin
    rcases hrw with hrw | ⟨hrw, hmode⟩
    · obtain ⟨i, _, _, e⟩ := ctl_latch_ret guest_hz now now2 s eax hsel hrw
      rw [e]
      by_cases hol : (s.get i).olbyte = 0
      · obtain ⟨c1, hc1, _⟩ := latch_returns guest_hz now now2 (s.get i) hol
          (Or.inr ⟨hhz, hdiv⟩)
        rw [hc1]
        exact ⟨_, rfl, rfl⟩
      · rw [latch_pending guest_hz now now2 (s.get i) hol]
        exact ⟨_, rfl, rfl⟩
    · obtain ⟨i, _, _, e⟩ := ctl_program_ret guest_hz now now2 s eax hsel hrw hmode
      exact ⟨_, e, rfl⟩

theorem handler_width (guest_hz : Int) (now now2 : timeval) (s : pit_state)
    (in_ port bytes : Int) (eax : Nat) (hb : bytes ≠ 1) :
    pit_8254_handler guest_hz now now2 s in_ port bytes eax = .ok ⟨-1, eax, s⟩ := by
  unfold pit_8254_handler
  simp only [hb, ne_eq, not_false_eq_true, if_true]

theorem handler_illegal (guest_hz : Int) (now now2 : timeval) (s : pit_state)
    (in_ port : Int) (eax : Nat) (hl : ¬ legal_access in_ port) :
    pit_8254_handler guest_hz now now2 s in_ port 1 eax = .error .assert_failed := by
  unfold legal_access at hl
  simp only [not_or, not_and] at hl
  by_cases hp : port = 0x43
  · subst hp
    exact handler_ctl_read guest_hz now now2 s in_ (hl.2 rfl) eax
  · unfold pit_8254_handler
    have h1 : ¬ (port ≥ TIMER_CNTR0 ∧ port ≤ TIMER_CNTR2) := by
      unfold TIMER_CNTR0 TIMER_CNTR2
      intro h
      exact hl.1 h.1 h.2
    have h2 : ¬ port = TIMER_MODE := hp
    simp only [h1, h2, ne_eq, not_true_eq_false, not_false_eq_true, if_true, if_false]

theorem lval_period {D : Nat} (hD : 0 < D) (h16 : D < 65536) (t : Nat) :
    lval D (t + D) = lval D t := by
  rw [lval_eq hD h16, lval_eq hD h16, Nat.add_mod_right]

theorem default_divisor_ne_zero (guest_hz : Int) (h1 : 1 ≤ guest_hz)
    (h2 : guest_hz ≤ 2386364) :
    (TIMER_DIV PIT_8254_FREQ guest_hz % 2 ^ 16).toNat ≠ 0 := by
  unfold TIMER_DIV PIT_8254_FREQ
  have e1 : Int.tdiv guest_hz 2 = guest_hz / 2 :=
    Int.tdiv_eq_ediv (show 0 ≤ guest_hz by omega) (show (0 : Int) ≤ 2 by decide)
  rw [e1]
  have e2 : Int.tdiv (((1193182 : Nat) : Int) + guest_hz / 2) guest_hz
      = (((1193182 : Nat) : Int) + guest_hz / 2) / guest_hz :=
    Int.tdiv_eq_ediv (by omega) (show 0 ≤ guest_hz by omega)
  rw [e2]
  by_cases h : guest_hz ≤ 18
  · interval_cases guest_hz <;> decide
  · have ha : 1 ≤ (((1193182 : Nat) : Int) + guest_hz / 2) / guest_hz := by
      rw [Int.le_ediv_iff_mul_le (by omega)]; omega
    have hb : (((1193182 : Nat) : Int) + guest_hz / 2) / guest_hz < 65536 := by
      rw [Int.ediv_lt_iff_lt_mul (by omega)]; omega
    omega

theorem latch_ok_fields (guest_hz : Int) (now now2 : timeval) (c c1 : counter)
    (h : latch guest_hz now now2 c = .ok c1) :
    c1.crbyte = c.crbyte ∧ c1.cr0 = c.cr0 ∧ c1.cr1 = c.cr1 ∧
      ((c.olbyte ≠ 0 ∧ c1 = c) ∨ (c.olbyte = 0 ∧ c1.olbyte = 2 ∧ c1.initial ≠ 0)) := by
  by_cases hol : c.olbyte = 0
  · unfold latch at h
    simp only [hol, ne_eq, not_true_eq_false, if_false] at h
    split_ifs at h with h1 h2 h3
    · cases h
      exact ⟨rfl, rfl, rfl, Or.inr ⟨hol, rfl, h3⟩⟩
    · cases h
      refine ⟨rfl, rfl, rfl, Or.inr ⟨hol, rfl, ?_⟩⟩
      intro h0
      exact h1 (Or.inl h0)
  · rw [latch_pending guest_hz now now2 c hol] at h
    cases h
    exact ⟨rfl, rfl, rfl, Or.inl ⟨hol, rfl⟩⟩

theorem set_wf (s : pit_state) (i : Nat) (c : counter) (hs : s.wf) (hc : c.wf) :
    (s.set i c).wf := by
  unfold pit_state.wf at hs ⊢
  unfold pit_state.set
  split
  · exact ⟨hc, hs.2.1, hs.2.2⟩
  · exact ⟨hs.1, hc, hs.2.2⟩
  · exact ⟨hs.1, hs.2.1, hc⟩

theorem handler_data_shape (guest_hz : Int) (now now2 : timeval) (s : pit_state)
    (i : Nat) (hi : i < 3) (in_ bytes : Int) (eax : Nat) (r : io_result)
    (hr : pit_8254_handler guest_hz now now2 s in_ (data_port i) bytes eax = .ok r) :
    ∃ c1 : counter, r.counter = s.set i c1 ∧ ((s.get i).wf → c1.wf) := by
  by_cases hb : bytes = 1
  · subst hb
    by_cases hin : in_ = 0
    · subst hin
      by_cases h0 : (s.get i).crbyte = 0
      · rw [handler_write_first guest_hz now now2 s i hi eax h0] at hr
        cases hr
        exact ⟨_, rfl, fun hw => ⟨Or.inr rfl, hw.2⟩⟩
      · by_cases h1 : (s.get i).crbyte = 1
        · rw [handler_write_second guest_hz now now2 s i hi eax h1] at hr
          cases hr
          exact ⟨_, rfl, fun hw => ⟨Or.inl rfl, hw.2⟩⟩
        · rw [handler_write_bad guest_hz now now2 s i hi eax h0 h1] at hr
          cases hr
    · rw [handler_read guest_hz now now2 s i hi in_ hin eax] at hr
      split_ifs at hr
      · cases hr
        exact ⟨_, rfl, fun hw => ⟨hw.1, Or.inr (Or.inl rfl)⟩⟩
      · cases hr
        exact ⟨_, rfl, fun hw => ⟨hw.1, Or.inl rfl⟩⟩
  · rw [handler_width guest_hz now now2 s in_ (data_port i) bytes eax hb] at hr
    cases hr
    exact ⟨s.get i, (set_get s i).symm, fun hw => hw⟩

theorem handler_ctl_shape (guest_hz : Int) (now now2 : timeval) (s : pit_state)
    (i : Nat) (hi : i < 3) (in_ bytes : Int) (eax : Nat)
    (hsel : eax % 256 &&& 0xc0 = i <<< 6) (r : io_result)
    (hr : pit_8254_handler guest_hz now now2 s in_ 0x43 bytes eax = .ok r) :
    ∃ c1 : counter, r.counter = s.set i c1 ∧ ((s.get i).wf → c1.wf) := by
  by_cases hb : bytes = 1
  · subst hb
    by_cases hin : in_ = 0
    · subst hin
      by_cases ha : accepted 0x43 1 (eax % 256)
      · unfold accepted at ha
        rcases ha with ⟨_, ha | ⟨_, hne, hrw⟩⟩
        · exact absurd ha (by decide)
        · rcases hrw with hrw | ⟨hrw, hmode⟩
          · have e : pit_8254_handler guest_hz now now2 s 0 0x43 1 eax = _ :=
              handler_ctl_latch guest_hz now now2 s i hi eax hsel hrw
            rw [e] at hr
            split at hr
            · cases hr
            · rename_i c1 hc1
              cases hr
              obtain ⟨h1, _, _, h2⟩ := latch_ok_fields guest_hz now now2 (s.get i) c1 hc1
              refine ⟨c1, rfl, fun hw => ?_⟩
              rcases h2 with ⟨_, h2⟩ | ⟨_, h2, _⟩
              · rw [h2]; exact hw
              · exact ⟨by rw [h1]; exact hw.1, Or.inr (Or.inr h2)⟩
          · have e : pit_8254_handler guest_hz now now2 s 0 0x43 1 eax = _ :=
              handler_ctl_program guest_hz now now2 s i hi eax hsel hrw hmode
            rw [e] at hr
            cases hr
            exact ⟨_, rfl, fun hw => ⟨hw.1, Or.inl rfl⟩⟩
      · rw [handler_reject guest_hz now now2 s 0 0x43 1 eax (by decide) ha] at hr
        cases hr
        exact ⟨s.get i, (set_get s i).symm, fun hw => hw⟩
    · rw [handler_ctl_read guest_hz now now2 s in_ hin eax] at hr
      cases hr
  · rw [handler_width guest_hz now now2 s in_ 0x43 bytes eax hb] at hr
    cases hr
    exact ⟨s.get i, (set_get s i).symm, fun hw => hw⟩

theorem handler_wf (guest_hz : Int) (now now2 : timeval) (s : pit_state)
    (in_ port bytes : Int) (eax : Nat) (r : io_result) (hs : s.wf)
    (hr : pit_8254_handler guest_hz now now2 s in_ port bytes eax = .ok r) :
    r.counter.wf := by
  by_cases hb : bytes = 1
  · subst hb
    by_cases hl : legal_access in_ port
    · unfold legal_access at hl
      rcases hl with hp | ⟨hp, _⟩
      · obtain ⟨i, hi, rfl⟩ := data_port_of port hp
        obtain ⟨c1, h1, h2⟩ := handler_data_shape guest_hz now now2 s i hi in_ 1 eax r hr
        rw [h1]
        exact set_wf s i c1 hs (h2 (get_wf s hs i))
      · subst hp
        rcases sel_cases (eax % 256) (Nat.mod_lt _ (by decide)) with h | ⟨i, hi, h⟩
        · have ha : ¬ accepted 0x43 1 (eax % 256) := by
            unfold accepted
            intro hacc
            rcases hacc with ⟨_, hacc | ⟨_, hne, _⟩⟩
            · exact absurd hacc (by decide)
            · exact hne h
          by_cases hin : in_ = 0
          · subst hin
            rw [handler_reject guest_hz now now2 s 0 0x43 1 eax (by decide) ha] at hr
            cases hr
            exact hs
          · rw [handler_ctl_read guest_hz now now2 s in_ hin eax] at hr
            cases hr
        · obtain ⟨c1, h1, h2⟩ :=
            handler_ctl_shape guest_hz now now2 s i hi in_ 1 eax h r hr
          rw [h1]
          exact set_wf s i c1 hs (h2 (get_wf s hs i))
    · rw [handler_illegal guest_hz now now2 s in_ port eax hl] at hr
      cases hr
  · rw [handler_width guest_hz now now2 s in_ port bytes eax hb] at hr
    cases hr
    exact hs

theorem reachable_wf (guest_hz : Int) (s : pit_state) (h : reachable guest_hz s) :
    s.wf := by
  induction h with
  | init => decide
  | step s now now2 in_ port bytes eax r _ hr ih =>
    exact handler_wf guest_hz now now2 s in_ port bytes eax r ih hr

theorem latch_captures (guest_hz : Int) (now now2 : timeval) (c c1 : counter)
    (hol : c.olbyte = 0) (h : latch guest_hz now now2 c = .ok c1) :
    c1.olbyte = 2 ∧
    c1.ol1 = lval c1.initial
      (delta_ticks (if c.initial = 0 ∨ c.initial = 1 then now2 else now) c1.tv) % 256 ∧
    c1.ol0 = (lval c1.initial
      (delta_ticks (if c.initial = 0 ∨ c.initial = 1 then now2 else now) c1.tv) >>> 8) % 256 := by
  unfold latch at h
  simp only [hol, ne_eq, not_true_eq_false, if_false] at h
  split_ifs at h with h1 h2 h3
  · cases h
    simp [h1]
  · cases h
    simp [h1]

theorem lval_lt (D t : Nat) : lval D t < 2 ^ 16 := by
  unfold lval
  exact Nat.mod_lt _ (by decide)

theorem delta_ticks_self (t : timeval) : delta_ticks t t = 0 := by
  unfold delta_ticks delta_nsecs timevalsub timevalfix
  simp

theorem latch_error (guest_hz : Int) (now now2 : timeval) (c : counter) (e : Fault)
    (h : latch guest_hz now now2 c = .error e) : e = .div_by_zero := by
  by_cases hol : c.olbyte = 0
  · by_cases hD : 2 ≤ c.initial
    · rw [latch_programmed guest_hz now now2 c hol hD] at h
      cases h
    · unfold latch at h
      dsimp only at h
      split_ifs at h <;> cases h <;> rfl
  · rw [latch_pending guest_hz now now2 c hol] at h
    cases h

theorem handler_no_index_fault (guest_hz : Int) (now now2 : timeval) (s : pit_state)
    (in_ port bytes : Int) (eax : Nat) (hs : s.wf) :
    pit_8254_handler guest_hz now now2 s in_ port bytes eax
      ≠ .error .index_out_of_range := by
  intro hr
  by_cases hb : bytes = 1
  · subst hb
    by_cases hl : legal_access in_ port
    · by_cases ha : accepted port 1 (eax % 256)
      · unfold accepted at ha
        rcases ha with ⟨_, hp | ⟨hp, hne, hrw⟩⟩
        · obtain ⟨i, hi, rfl⟩ := data_port_of port hp
          have hw := get_wf s hs i
          unfold counter.wf at hw
          by_cases hin : in_ = 0
          · subst hin
            rcases hw.1 with h0 | h1
            · rw [handler_write_first guest_hz now now2 s i hi eax h0] at hr
              cases hr
            · rw [handler_write_second guest_hz now now2 s i hi eax h1] at hr
              cases hr
          · rw [handler_read guest_hz now now2 s i hi in_ hin eax] at hr
            rcases hw.2 with h0 | h1 | h2
            · simp [h0] at hr
            · simp [h1] at hr
            · simp [h2] at hr
        · subst hp
          unfold legal_access at hl
          have hin : in_ = 0 := by omega
          subst hin
          rcases hrw with hrw | ⟨hrw, hmode⟩
          · obtain ⟨i, _, _, e⟩ := ctl_latch_ret guest_hz now now2 s eax hne hrw
            rw [e] at hr
            split at hr
            · rename_i e1 he1
              have := latch_error guest_hz now now2 _ e1 he1
              subst this
              cases hr
            · cases hr
          · obtain ⟨i, _, _, e⟩ := ctl_program_ret guest_hz now now2 s eax hne hrw hmode
            rw [e] at hr
            cases hr
      · rw [handler_reject guest_hz now now2 s in_ port 1 eax hl ha] at hr
        cases hr
    · rw [handler_illegal guest_hz now now2 s in_ port eax hl] at hr
      cases hr
  · rw [handler_width guest_hz now now2 s in_ port bytes eax hb] at hr
    cases hr

theorem sel_shift : ∀ v < 256, v &&& 0xc0 = (v >>> 6) <<< 6 := by
  decide

theorem TIMER_DIV_eq (guest_hz : Int) (h1 : 1 ≤ guest_hz) :
    TIMER_DIV PIT_8254_FREQ guest_hz = (1193182 + guest_hz / 2) / guest_hz := by
  unfold TIMER_DIV PIT_8254_FREQ
  have e1 : Int.tdiv guest_hz 2 = guest_hz / 2 :=
    Int.tdiv_eq_ediv (show 0 ≤ guest_hz by omega) (show (0 : Int) ≤ 2 by decide)
  rw [e1]
  have e2 : Int.tdiv (((1193182 : Nat) : Int) + guest_hz / 2) guest_hz
      = (((1193182 : Nat) : Int) + guest_hz / 2) / guest_hz :=
    Int.tdiv_eq_ediv (by omega) (show 0 ≤ guest_hz by omega)
  rw [e2]
  rfl

theorem program_latch_read (guest_hz : Int)
    (t1 u1 t2 u2 t3 u3 t4 u4 t5 u5 t6 u6 : timeval) (s : pit_state)
    (i : Nat) (hi : i < 3) (D : Nat) (hD2 : 2 ≤ D) (hD16 : D ≤ 65535)
    (hcr : (s.get i).crbyte = 0)
    (cw : Nat) (hsel : cw % 256 &&& TIMER_SEL_MASK = i <<< 6)
    (hrw : cw % 256 &&& TIMER_RW_MASK = TIMER_16BIT)
    (hmode : cw % 256 &&& TIMER_MODE_MASK = TIMER_RATEGEN ∨
      cw % 256 &&& TIMER_MODE_MASK = TIMER_SQWAVE)
    (lw : Nat) (hlsel : lw % 256 &&& TIMER_SEL_MASK = i <<< 6)
    (hlrw : lw % 256 &&& TIMER_RW_MASK = TIMER_LATCH)
    (rd : Int) (hrd : rd ≠ 0) (e5 e6 : Nat) :
    ∃ r1 r2 r3 r4 r5 r6 : io_result,
      pit_8254_handler guest_hz t1 u1 s 0 TIMER_MODE 1 cw = .ok r1 ∧
      pit_8254_handler guest_hz t2 u2 r1.counter 0 (data_port i) 1 (D % 256) = .ok r2 ∧
      pit_8254_handler guest_hz t3 u3 r2.counter 0 (data_port i) 1 (D / 256) = .ok r3 ∧
      pit_8254_handler guest_hz t4 u4 r3.counter 0 TIMER_MODE 1 lw = .ok r4 ∧
      pit_8254_handler guest_hz t5 u5 r4.counter rd (data_port i) 1 e5 = .ok r5 ∧
      pit_8254_handler guest_hz t6 u6 r5.counter rd (data_port i) 1 e6 = .ok r6 ∧
      r5.eax ||| (r6.eax <<< 8) = lval D (delta_ticks t4 t3) := by
  have hD : D < 65536 := by omega
  have a1 := handler_ctl_program guest_hz t1 u1 s i hi cw hsel hrw hmode
  have a2 := handler_write_first guest_hz t2 u2 (s.set i { s.get i with olbyte := 0 }) i hi
    (D % 256) (by rw [get_set_same]; exact hcr)
  simp only [get_set_same, set_set] at a2
  have a3 := handler_write_second guest_hz t3 u3
    (s.set i { s.get i with olbyte := 0, cr0 := D % 256 % 256, crbyte := 1 }) i hi
    (D / 256) (by rw [get_set_same])
  have hne : D ≠ 0 := by omega
  simp only [get_set_same, set_set, combine_bytes D hD, hne, if_false] at a3
  have a4 := handler_ctl_latch guest_hz t4 u4
    (s.set i { s.get i with olbyte := 0, cr0 := D % 256 % 256, crbyte := 0,
                            cr1 := D / 256 % 256, initial := D, tv := t3 }) i hi lw hlsel hlrw
  rw [get_set_same, latch_programmed guest_hz t4 u4 _ rfl hD2] at a4
  simp only [set_set] at a4
  have a5 := handler_read guest_hz t5 u5
    (s.set i { s.get i with cr0 := D % 256 % 256, crbyte := 0,
                            cr1 := D / 256 % 256, initial := D, tv := t3, olbyte := 2,
                            ol1 := lval D (delta_ticks t4 t3) % 256,
                            ol0 := (lval D (delta_ticks t4 t3) >>> 8) % 256 }) i hi rd hrd e5
  simp only [get_set_same, set_set, or_true, if_true] at a5
  have a6 := handler_read guest_hz t6 u6
    (s.set i { s.get i with cr0 := D % 256 % 256, crbyte := 0,
                            cr1 := D / 256 % 256, initial := D, tv := t3, olbyte := 1,
                            ol1 := lval D (delta_ticks t4 t3) % 256,
                            ol0 := (lval D (delta_ticks t4 t3) >>> 8) % 256 }) i hi rd hrd e6
  have h10 : ¬ ((1 : Int) = 0 ∨ (1 : Int) = 2) := by decide
  simp only [get_set_same, set_set, h10, if_true, if_false] at a6
  exact ⟨_, _, _, _, _, _, a1, a2, a3, a4, a5, a6,
    bytes_or _ (by simpa using lval_lt D (delta_ticks t4 t3))⟩

theorem delta_ticks_small (t tv : timeval) (h1 : 1 ≤ elapsed_usecs t tv)
    (h2 : elapsed_usecs t tv ≤ 999) :
    1 ≤ delta_ticks t tv ∧ delta_ticks t tv ≤ 1192 := by
  unfold delta_ticks
  rw [delta_nsecs_of_fits (by omega) (by omega)]
  have : nsecs_per_tick = 838 := rfl
  rw [this]
  omega

theorem sel_index_lt : ∀ v < 256, v &&& 0xc0 ≠ 0xc0 → v >>> 6 < 3 := by
  decide

theorem shift_index_sel : ∀ v < 256, v >>> 6 < 3 → v &&& 0xc0 ≠ 0xc0 := by
  decide

/-! ## Theorems -/

/-- C1: on a counter with no latch pending and a programmed divisor `D ≥ 2` (a 16-bit
value), at a normalised time `now` not before the normalised load instant `tv`, with
the elapsed nanoseconds representable in the 64-bit `delta_nsecs`, `latch` returns the
counter with `olbyte = 2` and the two bytes of `D - (elapsed_ticks mod D)` in `ol` (low
byte in `ol[1]`, high byte in `ol[0]`), where `elapsed_ticks = floor (elapsed_ns / 838)`
and `elapsed_ns = 1000 * elapsed_usecs`; every other field, `initial` and `tv` among
them, is unchanged. -/
theorem latch_stores_count (guest_hz : Int) (now now2 : timeval) (c : counter)
    (hol : c.olbyte = 0) (hD : 2 ≤ c.initial) (h16 : c.initial < 2 ^ 16)
    (hnow : now.normalised) (htv : c.tv.normalised) (hle : c.tv.le now)
    (hfit : 1000 * elapsed_usecs now c.tv < 2 ^ 64) :
    latch guest_hz now now2 c
      = .ok { c with
          olbyte := 2
          ol1 := (c.initial - ((1000 * elapsed_usecs now c.tv).toNat / 838) % c.initial) % 256
          ol0 := (c.initial - ((1000 * elapsed_usecs now c.tv).toNat / 838) % c.initial) >>> 8 } := by
  have h0 := elapsed_usecs_nonneg hnow htv hle
  have hticks : delta_ticks now c.tv = (1000 * elapsed_usecs now c.tv).toNat / 838 := by
    unfold delta_ticks
    rw [delta_nsecs_of_fits h0 hfit]
    rfl
  have hpos : 0 < c.initial := by omega
  have h16b : c.initial < 65536 := by simpa using h16
  have hl := lval_eq hpos h16b (delta_ticks now c.tv)
  have hb := lval_pos_le hpos h16b (delta_ticks now c.tv)
  have hhi : (lval c.initial (delta_ticks now c.tv) >>> 8) % 256
      = lval c.initial (delta_ticks now c.tv) >>> 8 := by
    rw [Nat.shiftRight_eq_div_pow]
    omega
  rw [latch_programmed guest_hz now now2 c hol hD, hhi, hl, hticks]

/-- Witness for C1: divisor 1193 loaded at 10.5 s, latched 500 microseconds later:
596 ticks have elapsed and the count 597 = 0x0255 is stored. -/
theorem latch_stores_count_witness :
    latch 100 ⟨10, 500500⟩ ⟨10, 500500⟩ counter_1193
      = .ok { counter_1193 with olbyte := 2, ol1 := 85, ol0 := 2 } :=
  latch_stores_count 100 ⟨10, 500500⟩ ⟨10, 500500⟩ counter_1193 rfl (by decide) (by decide)
    (by decide) (by decide) (by decide) (by decide)

/-- C2: on a channel whose `crbyte` is 0, a one-byte data-port write of `lo` returns 0,
keeps `initial` and `tv` and sets `crbyte` to 1 (only `cr[0]` and `crbyte` change); the
following one-byte data-port write of `hi`, with `lo`, `hi` not both zero, returns 0 and
sets `initial = lo | (hi << 8)`, `crbyte = 0` and `tv` to the time read by that call. -/
theorem program_two_bytes (guest_hz : Int) (t1 u1 t2 u2 : timeval) (s : pit_state)
    (i : Nat) (hi : i < 3) (lo hi_ : Nat) (hlo : lo < 256) (hhi : hi_ < 256)
    (hnz : ¬ (lo = 0 ∧ hi_ = 0)) (hcr : (s.get i).crbyte = 0) :
    ∃ r1 r2 : io_result,
      pit_8254_handler guest_hz t1 u1 s 0 (data_port i) 1 lo = .ok r1 ∧
      r1.ret = 0 ∧
      r1.counter = s.set i { s.get i with cr0 := lo, crbyte := 1 } ∧
      (r1.counter.get i).initial = (s.get i).initial ∧
      (r1.counter.get i).tv = (s.get i).tv ∧
      (r1.counter.get i).crbyte = 1 ∧
      pit_8254_handler guest_hz t2 u2 r1.counter 0 (data_port i) 1 hi_ = .ok r2 ∧
      r2.ret = 0 ∧
      r2.counter = s.set i { s.get i with cr0 := lo, cr1 := hi_, crbyte := 0,
                                          initial := lo ||| (hi_ <<< 8), tv := t2 } ∧
      (r2.counter.get i).initial = lo ||| (hi_ <<< 8) ∧
      (r2.counter.get i).crbyte = 0 ∧
      (r2.counter.get i).tv = t2 := by
  have hlo' : lo % 256 = lo := Nat.mod_eq_of_lt hlo
  have hhi' : hi_ % 256 = hi_ := Nat.mod_eq_of_lt hhi
  have hv : (lo ||| (hi_ % 2 ^ 16) <<< 8) % 2 ^ 16 = lo ||| hi_ <<< 8 := by
    have : hi_ % 2 ^ 16 = hi_ := Nat.mod_eq_of_lt (by omega)
    rw [this, or_shl8 _ _ hlo]
    omega
  have hne : lo ||| hi_ <<< 8 ≠ 0 := by
    rw [or_shl8 _ _ hlo]
    omega
  have e1 := handler_write_first guest_hz t1 u1 s i hi lo hcr
  rw [hlo'] at e1
  have e2 := handler_write_second guest_hz t2 u2
    (s.set i { s.get i with cr0 := lo, crbyte := 1 }) i hi hi_
    (by rw [get_set_same])
  simp only [get_set_same, set_set, hhi', hv, hne, if_false] at e2
  refine ⟨_, _, e1, rfl, rfl, ?_, ?_, ?_, e2, rfl, rfl, ?_, ?_, ?_⟩ <;>
    simp only [get_set_same]

/-- Witness for C2: channel 0 of the zero-initialised device, bytes 0xA9 then 0x04. -/
theorem program_two_bytes_witness :
    ∃ r1 r2 : io_result,
      pit_8254_handler 100 ⟨10, 0⟩ ⟨10, 0⟩ pit_zero 0 (data_port 0) 1 0xA9 = .ok r1 ∧
      (r1.counter.get 0).crbyte = 1 ∧
      pit_8254_handler 100 ⟨10, 500000⟩ ⟨10, 500000⟩ r1.counter 0 (data_port 0) 1 0x04
        = .ok r2 ∧
      (r2.counter.get 0).initial = 1193 ∧
      (r2.counter.get 0).crbyte = 0 ∧
      (r2.counter.get 0).tv = ⟨10, 500000⟩ := by
  obtain ⟨r1, r2, h1, _, _, _, _, h2, h3, _, _, h4, h5, h6⟩ :=
    program_two_bytes 100 ⟨10, 0⟩ ⟨10, 0⟩ ⟨10, 500000⟩ ⟨10, 500000⟩ pit_zero 0
      (by decide) 0xA9 0x04 (by decide) (by decide) (by decide) rfl
  exact ⟨r1, r2, h1, h2, h3, h4, h5, h6⟩

/-- C3: on a channel with `crbyte = 0`, for every divisor `2 ≤ D ≤ 65535`, the six calls
control word (16-bit access, rate generator), data write of `D % 256`, data write of
`D / 256`, latch command, data read, data read, made at arbitrary times, all return 0,
and the two bytes read satisfy `1 ≤ b1 | (b2 << 8) ≤ D`; the value is the count
`lval D (delta_ticks t4 t3)` computed from the load time `t3` and the latch time `t4`. -/
theorem program_latch_read_in_range (guest_hz : Int)
    (t1 u1 t2 u2 t3 u3 t4 u4 t5 u5 t6 u6 : timeval) (s : pit_state)
    (i : Nat) (hi : i < 3) (D : Nat) (hD2 : 2 ≤ D) (hD16 : D ≤ 65535)
    (hcr : (s.get i).crbyte = 0)
    (cw : Nat) (hsel : cw % 256 &&& TIMER_SEL_MASK = i <<< 6)
    (hrw : cw % 256 &&& TIMER_RW_MASK = TIMER_16BIT)
    (hmode : cw % 256 &&& TIMER_MODE_MASK = TIMER_RATEGEN)
    (lw : Nat) (hlsel : lw % 256 &&& TIMER_SEL_MASK = i <<< 6)
    (hlrw : lw % 256 &&& TIMER_RW_MASK = TIMER_LATCH)
    (rd : Int) (hrd : rd ≠ 0) (e5 e6 : Nat) :
    ∃ r1 r2 r3 r4 r5 r6 : io_result,
      pit_8254_handler guest_hz t1 u1 s 0 TIMER_MODE 1 cw = .ok r1 ∧
      pit_8254_handler guest_hz t2 u2 r1.counter 0 (data_port i) 1 (D % 256) = .ok r2 ∧
      pit_8254_handler guest_hz t3 u3 r2.counter 0 (data_port i) 1 (D / 256) = .ok r3 ∧
      pit_8254_handler guest_hz t4 u4 r3.counter 0 TIMER_MODE 1 lw = .ok r4 ∧
      pit_8254_handler guest_hz t5 u5 r4.counter rd (data_port i) 1 e5 = .ok r5 ∧
      pit_8254_handler guest_hz t6 u6 r5.counter rd (data_port i) 1 e6 = .ok r6 ∧
      r1.ret = 0 ∧ r2.ret = 0 ∧ r3.ret = 0 ∧ r4.ret = 0 ∧ r5.ret = 0 ∧ r6.ret = 0 ∧
      r5.eax ||| (r6.eax <<< 8) = lval D (delta_ticks t4 t3) ∧
      1 ≤ r5.eax ||| (r6.eax <<< 8) ∧ r5.eax ||| (r6.eax <<< 8) ≤ D := by
  have hD : D < 65536 := by omega
  have hb := lval_pos_le (show 0 < D by omega) hD (delta_ticks t4 t3)
  have a1 := handler_ctl_program guest_hz t1 u1 s i hi cw hsel hrw (Or.inl hmode)
  have a2 := handler_write_first guest_hz t2 u2 (s.set i { s.get i with olbyte := 0 }) i hi
    (D % 256) (by rw [get_set_same]; exact hcr)
  simp only [get_set_same, set_set] at a2
  have a3 := handler_write_second guest_hz t3 u3
    (s.set i { s.get i with olbyte := 0, cr0 := D % 256 % 256, crbyte := 1 }) i hi
    (D / 256) (by rw [get_set_same])
  have hne : D ≠ 0 := by omega
  simp only [get_set_same, set_set, combine_bytes D hD, hne, if_false] at a3
  have a4 := handler_ctl_latch guest_hz t4 u4
    (s.set i { s.get i with olbyte := 0, cr0 := D % 256 % 256, crbyte := 0,
                            cr1 := D / 256 % 256, initial := D, tv := t3 }) i hi lw hlsel hlrw
  rw [get_set_same, latch_programmed guest_hz t4 u4 _ rfl hD2] at a4
  simp only [set_set] at a4
  have a5 := handler_read guest_hz t5 u5
    (s.set i { s.get i with cr0 := D % 256 % 256, crbyte := 0,
                            cr1 := D / 256 % 256, initial := D, tv := t3, olbyte := 2,
                            ol1 := lval D (delta_ticks t4 t3) % 256,
                            ol0 := (lval D (delta_ticks t4 t3) >>> 8) % 256 }) i hi rd hrd e5
  simp only [get_set_same, set_set, or_true, if_true] at a5
  have a6 := handler_read guest_hz t6 u6
    (s.set i { s.get i with cr0 := D % 256 % 256, crbyte := 0,
                            cr1 := D / 256 % 256, initial := D, tv := t3, olbyte := 1,
                            ol1 := lval D (delta_ticks t4 t3) % 256,
                            ol0 := (lval D (delta_ticks t4 t3) >>> 8) % 256 }) i hi rd hrd e6
  have h10 : ¬ ((1 : Int) = 0 ∨ (1 : Int) = 2) := by decide
  simp only [get_set_same, set_set, h10, if_true, if_false] at a6
  have hval : lval D (delta_ticks t4 t3) % 256
      ||| ((lval D (delta_ticks t4 t3) >>> 8) % 256) <<< 8 = lval D (delta_ticks t4 t3) :=
    bytes_or _ (by omega)
  refine ⟨_, _, _, _, _, _, a1, a2, a3, a4, a5, a6, rfl, rfl, rfl, rfl, rfl, rfl, ?_, ?_, ?_⟩
  · exact hval
  · simp only [hval]; exact hb.1
  · simp only [hval]; exact hb.2

/-- Witness for C3: channel 0 of the zero-initialised device, divisor 1193, control word
0x34, latch command 0x00, latched 500 microseconds after the load. -/
theorem program_latch_read_in_range_witness :
    ∃ r1 r2 r3 r4 r5 r6 : io_result,
      pit_8254_handler 100 ⟨10, 0⟩ ⟨10, 0⟩ pit_zero 0 TIMER_MODE 1 0x34 = .ok r1 ∧
      pit_8254_handler 100 ⟨10, 0⟩ ⟨10, 0⟩ r1.counter 0 (data_port 0) 1 (1193 % 256)
        = .ok r2 ∧
      pit_8254_handler 100 ⟨10, 500000⟩ ⟨10, 0⟩ r2.counter 0 (data_port 0) 1 (1193 / 256)
        = .ok r3 ∧
      pit_8254_handler 100 ⟨10, 500500⟩ ⟨10, 0⟩ r3.counter 0 TIMER_MODE 1 0x00 = .ok r4 ∧
      pit_8254_handler 100 ⟨10, 500600⟩ ⟨10, 0⟩ r4.counter 1 (data_port 0) 1 0 = .ok r5 ∧
      pit_8254_handler 100 ⟨10, 500700⟩ ⟨10, 0⟩ r5.counter 1 (data_port 0) 1 0 = .ok r6 ∧
      1 ≤ r5.eax ||| (r6.eax <<< 8) ∧ r5.eax ||| (r6.eax <<< 8) ≤ 1193 := by
  obtain ⟨r1, r2, r3, r4, r5, r6, h1, h2, h3, h4, h5, h6, _, _, _, _, _, _, _, hlo, hhi⟩ :=
    program_latch_read_in_range 100 ⟨10, 0⟩ ⟨10, 0⟩ ⟨10, 0⟩ ⟨10, 0⟩ ⟨10, 500000⟩ ⟨10, 0⟩
      ⟨10, 500500⟩ ⟨10, 0⟩ ⟨10, 500600⟩ ⟨10, 0⟩ ⟨10, 500700⟩ ⟨10, 0⟩ pit_zero 0
      (by decide) 1193 (by decide) (by decide) rfl 0x34 (by decide) (by decide) (by decide)
      0x00 (by decide) (by decide) 1 (by decide) 0 0
  exact ⟨r1, r2, r3, r4, r5, r6, h1, h2, h3, h4, h5, h6, hlo, hhi⟩

/-- C4: `latch` returns every counter whose `olbyte` is non-zero unchanged, whatever the
time. Consequently, on a channel with no latch pending whose divisor is defined (it is
programmed, or the default divisor for `guest_hz` is non-zero), a first latch command
captures a counter state `c1` with `olbyte = 2`; a second latch command at any other
time returns 0 and leaves all three counters as the first left them; and the two
following data-port reads return `c1.ol[1]` and `c1.ol[0]`, the bytes the first latch
captured. -/
theorem latch_twice_keeps_first (guest_hz : Int) (t1 u1 t2 u2 t3 u3 t4 u4 : timeval)
    (s : pit_state) (i : Nat) (hi : i < 3)
    (lw1 : Nat) (hsel1 : lw1 % 256 &&& TIMER_SEL_MASK = i <<< 6)
    (hrw1 : lw1 % 256 &&& TIMER_RW_MASK = TIMER_LATCH)
    (lw2 : Nat) (hsel2 : lw2 % 256 &&& TIMER_SEL_MASK = i <<< 6)
    (hrw2 : lw2 % 256 &&& TIMER_RW_MASK = TIMER_LATCH)
    (rd : Int) (hrd : rd ≠ 0) (e3 e4 : Nat)
    (hol : (s.get i).olbyte = 0)
    (hdiv : 2 ≤ (s.get i).initial ∨
      (guest_hz ≠ 0 ∧ (TIMER_DIV PIT_8254_FREQ guest_hz % 2 ^ 16).toNat ≠ 0)) :
    (∀ (hz : Int) (now now2 : timeval) (c : counter),
        c.olbyte ≠ 0 → latch hz now now2 c = .ok c) ∧
    ∃ c1 : counter,
      latch guest_hz t1 u1 (s.get i) = .ok c1 ∧ c1.olbyte = 2 ∧
      pit_8254_handler guest_hz t1 u1 s 0 TIMER_MODE 1 lw1 = .ok ⟨0, lw1, s.set i c1⟩ ∧
      pit_8254_handler guest_hz t2 u2 (s.set i c1) 0 TIMER_MODE 1 lw2
        = .ok ⟨0, lw2, s.set i c1⟩ ∧
      pit_8254_handler guest_hz t3 u3 (s.set i c1) rd (data_port i) 1 e3
        = .ok ⟨0, c1.ol1, s.set i { c1 with olbyte := 1 }⟩ ∧
      pit_8254_handler guest_hz t4 u4 (s.set i { c1 with olbyte := 1 }) rd (data_port i) 1 e4
        = .ok ⟨0, c1.ol0, s.set i { c1 with olbyte := 0 }⟩ := by
  refine ⟨fun hz now now2 c hc => latch_pending hz now now2 c hc, ?_⟩
  obtain ⟨c1, hc1, h2, _⟩ := latch_returns guest_hz t1 u1 (s.get i) hol hdiv
  have hne : c1.olbyte ≠ 0 := by rw [h2]; decide
  refine ⟨c1, hc1, h2, ?_, ?_, ?_, ?_⟩
  · rw [handler_ctl_latch guest_hz t1 u1 s i hi lw1 hsel1 hrw1, hc1]
  · rw [handler_ctl_latch guest_hz t2 u2 (s.set i c1) i hi lw2 hsel2 hrw2, get_set_same,
      latch_pending guest_hz t2 u2 c1 hne]
    simp only [set_set]
  · rw [handler_read guest_hz t3 u3 (s.set i c1) i hi rd hrd e3]
    simp only [get_set_same, set_set, h2, or_true, if_true]
  · rw [handler_read guest_hz t4 u4 (s.set i { c1 with olbyte := 1 }) i hi rd hrd e4]
    have h10 : ¬ ((1 : Int) = 0 ∨ (1 : Int) = 2) := by decide
    simp only [get_set_same, set_set, h10, if_true, if_false]

/-- Witness for C4: channel 0 of the zero-initialised device with `guest_hz = 100`; the
first latch command installs the default divisor 11932 and captures it. -/
theorem latch_twice_keeps_first_witness :
    ∃ c1 : counter,
      latch 100 ⟨10, 0⟩ ⟨10, 0⟩ (pit_zero.get 0) = .ok c1 ∧ c1.olbyte = 2 ∧
      pit_8254_handler 100 ⟨10, 0⟩ ⟨10, 0⟩ pit_zero 0 TIMER_MODE 1 0x00
        = .ok ⟨0, 0x00, pit_zero.set 0 c1⟩ ∧
      pit_8254_handler 100 ⟨11, 0⟩ ⟨11, 0⟩ (pit_zero.set 0 c1) 0 TIMER_MODE 1 0x00
        = .ok ⟨0, 0x00, pit_zero.set 0 c1⟩ ∧
      pit_8254_handler 100 ⟨12, 0⟩ ⟨12, 0⟩ (pit_zero.set 0 c1) 1 (data_port 0) 1 0
        = .ok ⟨0, c1.ol1, pit_zero.set 0 { c1 with olbyte := 1 }⟩ ∧
      pit_8254_handler 100 ⟨13, 0⟩ ⟨13, 0⟩ (pit_zero.set 0 { c1 with olbyte := 1 }) 1
          (data_port 0) 1 0
        = .ok ⟨0, c1.ol0, pit_zero.set 0 { c1 with olbyte := 0 }⟩ :=
  (latch_twice_keeps_first 100 ⟨10, 0⟩ ⟨10, 0⟩ ⟨11, 0⟩ ⟨11, 0⟩ ⟨12, 0⟩ ⟨12, 0⟩ ⟨13, 0⟩
    ⟨13, 0⟩ pit_zero 0 (by decide) 0x00 (by decide) (by decide) 0x00 (by decide) (by decide)
    1 (by decide) 0 0 rfl (Or.inr ⟨by decide, by decide⟩)).2

/-- C5: for every access with a legal port and direction, the handler returns -1 and
nothing else when the access is not accepted; when it is accepted, every call that
returns returns 0, and the call does return on every state that satisfies the index
invariant when the default divisor for `guest_hz` is defined and non-zero. Accepted
means: `bytes = 1` and the port is a data port, or the port is the control port and the
control byte `val` has `(val & 0xc0) != 0xc0` and either `(val & 0x30) = 0x00`, or
`(val & 0x30) = 0x30` with `(val & 0x0f)` equal to `0x04` or `0x06`. -/
theorem handler_return_value (guest_hz : Int) (now now2 : timeval) (s : pit_state)
    (in_ port bytes : Int) (eax : Nat) (hl : legal_access in_ port) :
    (∀ r : io_result, pit_8254_handler guest_hz now now2 s in_ port bytes eax = .ok r →
        (r.ret = 0 ∨ r.ret = -1) ∧ (r.ret = 0 ↔ accepted port bytes (eax % 256))) ∧
    (¬ accepted port bytes (eax % 256) →
        pit_8254_handler guest_hz now now2 s in_ port bytes eax = .ok ⟨-1, eax, s⟩) ∧
    (accepted port bytes (eax % 256) → s.wf → guest_hz ≠ 0 →
        (TIMER_DIV PIT_8254_FREQ guest_hz % 2 ^ 16).toNat ≠ 0 →
        ∃ r : io_result,
          pit_8254_handler guest_hz now now2 s in_ port bytes eax = .ok r ∧ r.ret = 0) := by
  refine ⟨fun r hr => ?_, handler_reject guest_hz now now2 s in_ port bytes eax hl,
    fun ha hs hhz hdiv =>
      handler_accept_returns guest_hz now now2 s in_ port bytes eax hl ha hs hhz hdiv⟩
  by_cases ha : accepted port bytes (eax % 256)
  · have h0 := handler_accept_ret guest_hz now now2 s in_ port bytes eax ha r hr
    exact ⟨Or.inl h0, fun _ => ha, fun _ => h0⟩
  · rw [handler_reject guest_hz now now2 s in_ port bytes eax hl ha] at hr
    cases hr
    exact ⟨Or.inr rfl, fun h => by simp at h, fun h => absurd h ha⟩

/-- Witness for C5: on the zero-initialised device, the control word 0x34 (channel 0,
16-bit access, rate generator) is accepted and returns 0, and the read-back control
word 0xC4 is rejected with -1. -/
theorem handler_return_value_witness :
    (∃ r : io_result,
      pit_8254_handler 100 ⟨10, 0⟩ ⟨10, 0⟩ pit_zero 0 0x43 1 0x34 = .ok r ∧ r.ret = 0) ∧
    pit_8254_handler 100 ⟨10, 0⟩ ⟨10, 0⟩ pit_zero 0 0x43 1 0xC4
      = .ok ⟨-1, 0xC4, pit_zero⟩ :=
  ⟨(handler_return_value 100 ⟨10, 0⟩ ⟨10, 0⟩ pit_zero 0 0x43 1 0x34 (by decide)).2.2
      (by decide) (by decide) (by decide) (by decide),
   (handler_return_value 100 ⟨10, 0⟩ ⟨10, 0⟩ pit_zero 0 0x43 1 0xC4 (by decide)).2.1
      (by decide)⟩

/-- C6: whenever the handler returns -1, for any state, port, direction, width and value,
the three counters and `*eax` are exactly as before the call. -/
theorem rejection_atomic (guest_hz : Int) (now now2 : timeval) (s : pit_state)
    (in_ port bytes : Int) (eax : Nat) (r : io_result)
    (hr : pit_8254_handler guest_hz now now2 s in_ port bytes eax = .ok r)
    (hret : r.ret = -1) : r.counter = s ∧ r.eax = eax := by
  by_cases hb : bytes = 1
  · subst hb
    by_cases hl : legal_access in_ port
    · by_cases ha : accepted port 1 (eax % 256)
      · have h0 := handler_accept_ret guest_hz now now2 s in_ port 1 eax ha r hr
        rw [h0] at hret
        exact absurd hret (by decide)
      · rw [handler_reject guest_hz now now2 s in_ port 1 eax hl ha] at hr
        cases hr
        exact ⟨rfl, rfl⟩
    · rw [handler_illegal guest_hz now now2 s in_ port eax hl] at hr
      cases hr
  · rw [handler_width guest_hz now now2 s in_ port bytes eax hb] at hr
    cases hr
    exact ⟨rfl, rfl⟩

/-- Witness for C6: the read-back control word 0xC4 written to the control port of the
device programmed with divisor 1193 returns -1 and leaves the device as it was. -/
theorem rejection_atomic_witness :
    pit_8254_handler 100 ⟨11, 0⟩ ⟨11, 0⟩ pit_1193 0 0x43 1 0xC4 = .ok ⟨-1, 0xC4, pit_1193⟩ ∧
    (⟨-1, 0xC4, pit_1193⟩ : io_result).ret = -1 ∧
    (⟨-1, 0xC4, pit_1193⟩ : io_result).counter = pit_1193 ∧
    (⟨-1, 0xC4, pit_1193⟩ : io_result).eax = 0xC4 :=
  ⟨rfl, rfl,
    rejection_atomic 100 ⟨11, 0⟩ ⟨11, 0⟩ pit_1193 0 0x43 1 0xC4 ⟨-1, 0xC4, pit_1193⟩ rfl rfl⟩

/-- C7, counterexample: on channel 0 of the zero-initialised device (`crbyte = 0`), the
sequence data write 0x01, control word 0x34 (channel 0, 16-bit access, rate generator),
data write 0x02, data write 0x03 leaves the divisor 0x0201 = A | (B << 8), not
0x0302 = B | (C << 8), and `crbyte = 1`, not 0. -/
theorem control_word_restart_counterexample :
    ∃ r1 r2 r3 r4 : io_result,
      pit_8254_handler 100 ⟨10, 0⟩ ⟨10, 0⟩ pit_zero 0 (data_port 0) 1 0x01 = .ok r1 ∧
      pit_8254_handler 100 ⟨10, 0⟩ ⟨10, 0⟩ r1.counter 0 TIMER_MODE 1 0x34 = .ok r2 ∧
      pit_8254_handler 100 ⟨10, 0⟩ ⟨10, 0⟩ r2.counter 0 (data_port 0) 1 0x02 = .ok r3 ∧
      pit_8254_handler 100 ⟨10, 0⟩ ⟨10, 0⟩ r3.counter 0 (data_port 0) 1 0x03 = .ok r4 ∧
      r2.ret = 0 ∧
      (r4.counter.get 0).initial = 0x0201 ∧
      (r4.counter.get 0).initial ≠ 0x02 ||| (0x03 <<< 8) ∧
      (r4.counter.get 0).crbyte = 1 ∧
      (r4.counter.get 0).crbyte ≠ 0 :=
  ⟨_, _, _, _, rfl, rfl, rfl, rfl, rfl, rfl, by decide, rfl, by decide⟩

/-- C7, amended: a control word with 16-bit access mode does not restart the channel's
program sequence. On a channel with `crbyte = 0`, for all bytes `A`, `B`, `C` with `A`,
`B` not both zero, after the sequence data write `A`, accepted control-word write
selecting that channel with 16-bit access (rate generator or square wave), data write
`B`, data write `C`, all four calls have returned 0, the divisor is `A | (B << 8)`,
loaded at the time of the write of `B`, `crbyte` is 1 and `C` is held in `cr[0]` as
the first byte of the next program. -/
theorem control_word_keeps_sequence (guest_hz : Int) (t1 u1 t2 u2 t3 u3 t4 u4 : timeval)
    (s : pit_state) (i : Nat) (hi : i < 3) (A B C : Nat)
    (hA : A < 256) (hB : B < 256) (hC : C < 256) (hnz : ¬ (A = 0 ∧ B = 0))
    (hcr : (s.get i).crbyte = 0)
    (cw : Nat) (hsel : cw % 256 &&& TIMER_SEL_MASK = i <<< 6)
    (hrw : cw % 256 &&& TIMER_RW_MASK = TIMER_16BIT)
    (hmode : cw % 256 &&& TIMER_MODE_MASK = TIMER_RATEGEN ∨
      cw % 256 &&& TIMER_MODE_MASK = TIMER_SQWAVE) :
    ∃ r1 r2 r3 r4 : io_result,
      pit_8254_handler guest_hz t1 u1 s 0 (data_port i) 1 A = .ok r1 ∧
      pit_8254_handler guest_hz t2 u2 r1.counter 0 TIMER_MODE 1 cw = .ok r2 ∧
      pit_8254_handler guest_hz t3 u3 r2.counter 0 (data_port i) 1 B = .ok r3 ∧
      pit_8254_handler guest_hz t4 u4 r3.counter 0 (data_port i) 1 C = .ok r4 ∧
      r1.ret = 0 ∧ r2.ret = 0 ∧ r3.ret = 0 ∧ r4.ret = 0 ∧
      (r4.counter.get i).initial = A ||| (B <<< 8) ∧
      (r4.counter.get i).tv = t3 ∧
      (r4.counter.get i).crbyte = 1 ∧
      (r4.counter.get i).cr0 = C := by
  have hA' : A % 256 = A := Nat.mod_eq_of_lt hA
  have hB' : B % 256 = B := Nat.mod_eq_of_lt hB
  have hC' : C % 256 = C := Nat.mod_eq_of_lt hC
  have hv : (A ||| (B % 2 ^ 16) <<< 8) % 2 ^ 16 = A ||| B <<< 8 := by
    have : B % 2 ^ 16 = B := Nat.mod_eq_of_lt (by omega)
    rw [this, or_shl8 _ _ hA]
    omega
  have hne : A ||| B <<< 8 ≠ 0 := by
    rw [or_shl8 _ _ hA]
    omega
  have a1 := handler_write_first guest_hz t1 u1 s i hi A hcr
  rw [hA'] at a1
  have a2 := handler_ctl_program guest_hz t2 u2
    (s.set i { s.get i with cr0 := A, crbyte := 1 }) i hi cw hsel hrw hmode
  simp only [get_set_same, set_set] at a2
  have a3 := handler_write_second guest_hz t3 u3
    (s.set i { s.get i with cr0 := A, crbyte := 1, olbyte := 0 }) i hi B
    (by rw [get_set_same])
  simp only [get_set_same, set_set, hB', hv, hne, if_false] at a3
  have a4 := handler_write_first guest_hz t4 u4
    (s.set i { s.get i with cr0 := A, olbyte := 0, cr1 := B, crbyte := 0,
                            initial := A ||| B <<< 8, tv := t3 }) i hi C
    (by rw [get_set_same])
  simp only [get_set_same, set_set, hC'] at a4
  refine ⟨_, _, _, _, a1, a2, a3, a4, rfl, rfl, rfl, rfl, ?_, ?_, ?_, ?_⟩ <;>
    simp only [get_set_same]

/-- Witness for C7 (amended): channel 0 of the zero-initialised device, bytes 0x01, 0x02,
0x03 and control word 0x34. -/
theorem control_word_keeps_sequence_witness :
    ∃ r1 r2 r3 r4 : io_result,
      pit_8254_handler 100 ⟨10, 0⟩ ⟨10, 0⟩ pit_zero 0 (data_port 0) 1 0x01 = .ok r1 ∧
      pit_8254_handler 100 ⟨11, 0⟩ ⟨11, 0⟩ r1.counter 0 TIMER_MODE 1 0x34 = .ok r2 ∧
      pit_8254_handler 100 ⟨12, 0⟩ ⟨12, 0⟩ r2.counter 0 (data_port 0) 1 0x02 = .ok r3 ∧
      pit_8254_handler 100 ⟨13, 0⟩ ⟨13, 0⟩ r3.counter 0 (data_port 0) 1 0x03 = .ok r4 ∧
      (r4.counter.get 0).initial = 0x01 ||| (0x02 <<< 8) ∧
      (r4.counter.get 0).crbyte = 1 ∧
      (r4.counter.get 0).cr0 = 0x03 := by
  obtain ⟨r1, r2, r3, r4, h1, h2, h3, h4, _, _, _, _, h5, _, h6, h7⟩ :=
    control_word_keeps_sequence 100 ⟨10, 0⟩ ⟨10, 0⟩ ⟨11, 0⟩ ⟨11, 0⟩ ⟨12, 0⟩ ⟨12, 0⟩
      ⟨13, 0⟩ ⟨13, 0⟩ pit_zero 0 (by decide) 0x01 0x02 0x03 (by decide) (by decide)
      (by decide) (by decide) rfl 0x34 (by decide) (by decide) (Or.inl (by decide))
  exact ⟨r1, r2, r3, r4, h1, h2, h3, h4, h5, h6, h7⟩

/-- C8, counterexample: on channel 0 of the zero-initialised device, after data writes of
0x00 and 0x00 and a latch command at the very time of the load (0 elapsed ticks), the
divisor is 65535 and the latched count is 0xFFFF = 65535, whereas a period of 65536
ticks would give `(65536 - (0 mod 65536)) mod 2^16 = 0`. -/
theorem zero_divisor_counterexample :
    ∃ r1 r2 r3 : io_result,
      pit_8254_handler 100 ⟨10, 0⟩ ⟨10, 0⟩ pit_zero 0 (data_port 0) 1 0x00 = .ok r1 ∧
      pit_8254_handler 100 ⟨10, 0⟩ ⟨10, 0⟩ r1.counter 0 (data_port 0) 1 0x00 = .ok r2 ∧
      pit_8254_handler 100 ⟨10, 0⟩ ⟨10, 0⟩ r2.counter 0 TIMER_MODE 1 0x00 = .ok r3 ∧
      (r2.counter.get 0).initial = 65535 ∧
      delta_ticks ⟨10, 0⟩ (r2.counter.get 0).tv = 0 ∧
      (r3.counter.get 0).ol1 ||| ((r3.counter.get 0).ol0 <<< 8) = 65535 ∧
      (r3.counter.get 0).ol1 ||| ((r3.counter.get 0).ol0 <<< 8)
        ≠ (65536 - delta_ticks ⟨10, 0⟩ (r2.counter.get 0).tv % 65536) % 2 ^ 16 :=
  ⟨_, _, _, rfl, rfl, rfl, rfl, rfl, rfl, by decide⟩

/-- C8, amended: programming a divisor of 0 behaves as a period of 65535 ticks. On a
channel with `crbyte = 0` and no latch pending, after data writes of 0x00 and 0x00 (the
second at time `t2`) the divisor is 0xFFFF, and a latch command at time `t3`, after
`delta_ticks t3 t2` elapsed ticks, latches the 16-bit count
`65535 - (elapsed_ticks mod 65535)` (low byte in `ol[1]`, high byte in `ol[0]`); that
count is between 1 and 65535 and repeats with period exactly 65535 ticks. -/
theorem zero_divisor_period (guest_hz : Int) (t1 u1 t2 u2 t3 u3 : timeval)
    (s : pit_state) (i : Nat) (hi : i < 3)
    (hcr : (s.get i).crbyte = 0) (hol : (s.get i).olbyte = 0)
    (lw : Nat) (hlsel : lw % 256 &&& TIMER_SEL_MASK = i <<< 6)
    (hlrw : lw % 256 &&& TIMER_RW_MASK = TIMER_LATCH) :
    ∃ r1 r2 r3 : io_result,
      pit_8254_handler guest_hz t1 u1 s 0 (data_port i) 1 0x00 = .ok r1 ∧
      pit_8254_handler guest_hz t2 u2 r1.counter 0 (data_port i) 1 0x00 = .ok r2 ∧
      pit_8254_handler guest_hz t3 u3 r2.counter 0 TIMER_MODE 1 lw = .ok r3 ∧
      r1.ret = 0 ∧ r2.ret = 0 ∧ r3.ret = 0 ∧
      (r2.counter.get i).initial = 65535 ∧
      (r3.counter.get i).initial = 65535 ∧
      (r3.counter.get i).olbyte = 2 ∧
      (r3.counter.get i).ol1 = (65535 - delta_ticks t3 t2 % 65535) % 256 ∧
      (r3.counter.get i).ol0 = (65535 - delta_ticks t3 t2 % 65535) >>> 8 ∧
      (r3.counter.get i).ol1 ||| ((r3.counter.get i).ol0 <<< 8)
        = 65535 - delta_ticks t3 t2 % 65535 ∧
      (∀ ticks : Nat, lval 65535 ticks = 65535 - ticks % 65535) ∧
      (∀ ticks : Nat, lval 65535 (ticks + 65535) = lval 65535 ticks) ∧
      lval 65535 0 ≠ lval 65535 65536 := by
  have a1 := handler_write_first guest_hz t1 u1 s i hi 0 hcr
  have a2 := handler_write_second guest_hz t2 u2
    (s.set i { s.get i with cr0 := 0 % 256, crbyte := 1 }) i hi 0 (by rw [get_set_same])
  have hz : ((0 % 256) ||| (0 % 256 % 2 ^ 16) <<< 8) % 2 ^ 16 = 0 := by decide
  simp only [get_set_same, set_set, hz, if_true] at a2
  have a3 := handler_ctl_latch guest_hz t3 u3
    (s.set i { s.get i with cr0 := 0 % 256, cr1 := 0 % 256, crbyte := 0,
                            initial := 0xffff, tv := t2 }) i hi lw hlsel hlrw
  rw [get_set_same, latch_programmed guest_hz t3 u3
    { s.get i with cr0 := 0 % 256, cr1 := 0 % 256, crbyte := 0, initial := 0xffff, tv := t2 }
    hol (show 2 ≤ 65535 by decide)] at a3
  simp only [set_set] at a3
  have hl := lval_eq (show 0 < 65535 by decide) (by decide) (delta_ticks t3 t2)
  have hb := lval_pos_le (show 0 < 65535 by decide) (by decide) (delta_ticks t3 t2)
  have hhi : (lval 65535 (delta_ticks t3 t2) >>> 8) % 256
      = lval 65535 (delta_ticks t3 t2) >>> 8 := by
    rw [Nat.shiftRight_eq_div_pow]
    omega
  refine ⟨_, _, _, a1, a2, a3, rfl, rfl, rfl, ?_, ?_, ?_, ?_, ?_, ?_,
    fun t => lval_eq (by decide) (by decide) t,
    fun t => lval_period (by decide) (by decide) t, by decide⟩
  · simp only [get_set_same]
  · simp only [get_set_same]
  · simp only [get_set_same]
  · simp only [get_set_same]
    rw [← hl]
  · simp only [get_set_same]
    rw [← hl, hhi]
  · simp only [get_set_same]
    rw [← hl]
    exact bytes_or _ (by omega)

/-- Witness for C8 (amended): channel 0 of the zero-initialised device, loaded with 0 at
10 s and latched one second later. -/
theorem zero_divisor_period_witness :
    ∃ r1 r2 r3 : io_result,
      pit_8254_handler 100 ⟨9, 0⟩ ⟨9, 0⟩ pit_zero 0 (data_port 0) 1 0x00 = .ok r1 ∧
      pit_8254_handler 100 ⟨10, 0⟩ ⟨10, 0⟩ r1.counter 0 (data_port 0) 1 0x00 = .ok r2 ∧
      pit_8254_handler 100 ⟨11, 0⟩ ⟨11, 0⟩ r2.counter 0 TIMER_MODE 1 0x00 = .ok r3 ∧
      (r3.counter.get 0).initial = 65535 ∧
      (r3.counter.get 0).ol1 ||| ((r3.counter.get 0).ol0 <<< 8)
        = 65535 - delta_ticks ⟨11, 0⟩ ⟨10, 0⟩ % 65535 := by
  obtain ⟨r1, r2, r3, h1, h2, h3, _, _, _, _, h4, _, _, _, h5, _⟩ :=
    zero_divisor_period 100 ⟨9, 0⟩ ⟨9, 0⟩ ⟨10, 0⟩ ⟨10, 0⟩ ⟨11, 0⟩ ⟨11, 0⟩ pit_zero 0
      (by decide) rfl rfl 0x00 (by decide) (by decide)
  exact ⟨r1, r2, r3, h1, h2, h3, h4, h5⟩

/-- C9, counterexample: channel 0 programmed with divisor 1193 at 10.5 s, no latch
pending, read 500 microseconds later. The plain data-port read returns the stale byte
0 and leaves `ol` untouched, whereas `latch` at that time followed by the read returns
0x55, the low byte of the current count 597. -/
theorem read_auto_latch_counterexample :
    ∃ (r : io_result) (c1 : counter) (r2 : io_result),
      (pit_1193.get 0).olbyte = 0 ∧
      pit_8254_handler 100 ⟨10, 500500⟩ ⟨10, 500500⟩ pit_1193 1 (data_port 0) 1 0 = .ok r ∧
      latch 100 ⟨10, 500500⟩ ⟨10, 500500⟩ (pit_1193.get 0) = .ok c1 ∧
      pit_8254_handler 100 ⟨10, 500500⟩ ⟨10, 500500⟩ (pit_1193.set 0 c1) 1 (data_port 0) 1 0
        = .ok r2 ∧
      r.eax = 0 ∧ r2.eax = 0x55 ∧ r.eax ≠ r2.eax ∧ r.counter ≠ r2.counter :=
  ⟨_, _, _, rfl, rfl, rfl, rfl, rfl, rfl, by decide, by decide⟩

/-- C9, amended: a data-port read with no latch pending does not latch. For every channel
state with `olbyte = 0` and every current time, a one-byte data-port read returns 0 with
the byte `ol[1]` already in the output latch (the low byte left by the last latch), sets
`olbyte` to 1 and changes nothing else: `ol`, `initial` and `tv` keep their values and
the byte does not depend on the current time. The next read returns the stored `ol[0]`
and leaves `olbyte = 0`. -/
theorem read_without_latch (guest_hz : Int) (now now2 t2 u2 : timeval) (s : pit_state)
    (i : Nat) (hi : i < 3) (rd : Int) (hrd : rd ≠ 0) (eax eax2 : Nat)
    (hol : (s.get i).olbyte = 0) :
    pit_8254_handler guest_hz now now2 s rd (data_port i) 1 eax
      = .ok ⟨0, (s.get i).ol1, s.set i { s.get i with olbyte := 1 }⟩ ∧
    pit_8254_handler guest_hz t2 u2 (s.set i { s.get i with olbyte := 1 }) rd
        (data_port i) 1 eax2
      = .ok ⟨0, (s.get i).ol0, s.set i { s.get i with olbyte := 0 }⟩ := by
  have h10 : ¬ ((1 : Int) = 0 ∨ (1 : Int) = 2) := by decide
  constructor
  · rw [handler_read guest_hz now now2 s i hi rd hrd eax]
    simp only [hol, true_or, if_true]
  · rw [handler_read guest_hz t2 u2 _ i hi rd hrd eax2]
    simp only [get_set_same, set_set, h10, if_true, if_false]

/-- Witness for C9 (amended): the read of channel 0 programmed with divisor 1193
returns the stale byte 0 at two different times. -/
theorem read_without_latch_witness :
    pit_8254_handler 100 ⟨10, 500500⟩ ⟨10, 500500⟩ pit_1193 1 (data_port 0) 1 7
      = .ok ⟨0, 0, pit_1193.set 0 { pit_1193.get 0 with olbyte := 1 }⟩ ∧
    pit_8254_handler 100 ⟨99, 0⟩ ⟨99, 0⟩ pit_1193 1 (data_port 0) 1 7
      = .ok ⟨0, 0, pit_1193.set 0 { pit_1193.get 0 with olbyte := 1 }⟩ :=
  ⟨(read_without_latch 100 ⟨10, 500500⟩ ⟨10, 500500⟩ ⟨11, 0⟩ ⟨11, 0⟩ pit_1193 0 (by decide)
      1 (by decide) 7 7 rfl).1,
   (read_without_latch 100 ⟨99, 0⟩ ⟨99, 0⟩ ⟨11, 0⟩ ⟨11, 0⟩ pit_1193 0 (by decide)
      1 (by decide) 7 7 rfl).1⟩

/-- C10, counterexample: on channel 0 holding the freshly latched count `v = 0x0255`
(`olbyte = 2`, as `latch` leaves it for divisor 1193 after 596 ticks), the first
data-port read returns 0x55 = `v & 0xff`, not 0x02 = `v >> 8`, and the second returns
0x02, not 0x55. -/
theorem read_order_counterexample :
    ∃ r1 r2 : io_result,
      latch 100 ⟨10, 500500⟩ ⟨10, 500500⟩ counter_1193 = .ok counter_latched ∧
      pit_8254_handler 100 ⟨11, 0⟩ ⟨11, 0⟩ pit_latched 1 (data_port 0) 1 0 = .ok r1 ∧
      pit_8254_handler 100 ⟨12, 0⟩ ⟨12, 0⟩ r1.counter 1 (data_port 0) 1 0 = .ok r2 ∧
      r1.eax = 0x55 ∧ r1.eax ≠ 0x0255 >>> 8 ∧
      r2.eax = 0x02 ∧ r2.eax ≠ 0x0255 &&& 0xff :=
  ⟨_, _, rfl, rfl, rfl, rfl, by decide, rfl, by decide⟩

/-- C10, amended: reads return the least-significant byte first. On a channel on which
`latch` has just captured a 16-bit count `v` (`olbyte = 2`, `ol[1] = v & 0xff`,
`ol[0] = v >> 8`), the first one-byte data-port read returns 0 with the byte `v & 0xff`
and leaves `olbyte = 1`, the second returns 0 with the byte `v >> 8` and leaves
`olbyte = 0`; nothing but `olbyte` changes. -/
theorem read_order_lsb_first (guest_hz : Int) (t1 u1 t2 u2 : timeval) (s : pit_state)
    (i : Nat) (hi : i < 3) (rd : Int) (hrd : rd ≠ 0) (eax1 eax2 : Nat)
    (v : Nat) (hv : v < 2 ^ 16)
    (hol : (s.get i).olbyte = 2)
    (hlsb : (s.get i).ol1 = v % 256) (hmsb : (s.get i).ol0 = (v >>> 8) % 256) :
    ∃ r1 r2 : io_result,
      pit_8254_handler guest_hz t1 u1 s rd (data_port i) 1 eax1 = .ok r1 ∧
      pit_8254_handler guest_hz t2 u2 r1.counter rd (data_port i) 1 eax2 = .ok r2 ∧
      r1.ret = 0 ∧ r1.eax = v &&& 0xff ∧ (r1.counter.get i).olbyte = 1 ∧
      r2.ret = 0 ∧ r2.eax = v >>> 8 ∧ (r2.counter.get i).olbyte = 0 ∧
      r1.counter = s.set i { s.get i with olbyte := 1 } ∧
      r2.counter = s.set i { s.get i with olbyte := 0 } := by
  have h10 : ¬ ((1 : Int) = 0 ∨ (1 : Int) = 2) := by decide
  have a1 := handler_read guest_hz t1 u1 s i hi rd hrd eax1
  simp only [hol, or_true, if_true] at a1
  have a2 := handler_read guest_hz t2 u2 (s.set i { s.get i with olbyte := 1 }) i hi rd hrd
    eax2
  simp only [get_set_same, set_set, h10, if_true, if_false] at a2
  have hlow : v % 256 = v &&& 0xff := (Nat.and_pow_two_sub_one_eq_mod v 8).symm
  have hhigh : (v >>> 8) % 256 = v >>> 8 := by
    rw [Nat.shiftRight_eq_div_pow]
    have : v < 65536 := by simpa using hv
    omega
  refine ⟨_, _, a1, a2, rfl, ?_, ?_, rfl, ?_, ?_, rfl, rfl⟩
  · simp only [hlsb, hlow]
  · simp only [get_set_same]
  · simp only [hmsb, hhigh]
  · simp only [get_set_same]

/-- Witness for C10 (amended): the count 0x0255 latched on channel 0 is read back as
0x55 and then 0x02. -/
theorem read_order_lsb_first_witness :
    ∃ r1 r2 : io_result,
      pit_8254_handler 100 ⟨11, 0⟩ ⟨11, 0⟩ pit_latched 1 (data_port 0) 1 0 = .ok r1 ∧
      pit_8254_handler 100 ⟨12, 0⟩ ⟨12, 0⟩ r1.counter 1 (data_port 0) 1 0 = .ok r2 ∧
      r1.eax = 0x0255 &&& 0xff ∧ (r1.counter.get 0).olbyte = 1 ∧
      r2.eax = 0x0255 >>> 8 ∧ (r2.counter.get 0).olbyte = 0 := by
  obtain ⟨r1, r2, h1, h2, _, h3, h4, _, h5, h6, _, _⟩ :=
    read_order_lsb_first 100 ⟨11, 0⟩ ⟨11, 0⟩ ⟨12, 0⟩ ⟨12, 0⟩ pit_latched 0 (by decide) 1
      (by decide) 0 0 0x0255 (by decide) rfl rfl rfl
  exact ⟨r1, r2, h1, h2, h3, h4, h5, h6⟩

/-- C11: latch followed by two reads round-trips the count, low byte first. On a channel
with no latch pending whose divisor is defined, a latch command captures a counter
state `c1` with `olbyte = 2` holding the 16-bit count `v` that `latch` computes (the
`lval` of the divisor and the elapsed ticks); the two following one-byte data-port
reads return `b1 = v & 0xff` and `b2 = v >> 8`, so `b1 | (b2 << 8) = v`, and leave
`olbyte = 0`. -/
theorem latch_read_roundtrip (guest_hz : Int) (t1 u1 t2 u2 t3 u3 : timeval)
    (s : pit_state) (i : Nat) (hi : i < 3)
    (lw : Nat) (hlsel : lw % 256 &&& TIMER_SEL_MASK = i <<< 6)
    (hlrw : lw % 256 &&& TIMER_RW_MASK = TIMER_LATCH)
    (rd : Int) (hrd : rd ≠ 0) (e2 e3 : Nat)
    (hol : (s.get i).olbyte = 0)
    (hdiv : 2 ≤ (s.get i).initial ∨
      (guest_hz ≠ 0 ∧ (TIMER_DIV PIT_8254_FREQ guest_hz % 2 ^ 16).toNat ≠ 0)) :
    ∃ (c1 : counter) (v : Nat) (r2 r3 : io_result),
      latch guest_hz t1 u1 (s.get i) = .ok c1 ∧
      pit_8254_handler guest_hz t1 u1 s 0 TIMER_MODE 1 lw = .ok ⟨0, lw, s.set i c1⟩ ∧
      v = lval c1.initial
            (delta_ticks
              (if (s.get i).initial = 0 ∨ (s.get i).initial = 1 then u1 else t1) c1.tv) ∧
      c1.olbyte = 2 ∧
      pit_8254_handler guest_hz t2 u2 (s.set i c1) rd (data_port i) 1 e2 = .ok r2 ∧
      pit_8254_handler guest_hz t3 u3 r2.counter rd (data_port i) 1 e3 = .ok r3 ∧
      r2.ret = 0 ∧ r3.ret = 0 ∧
      r2.eax = v &&& 0xff ∧ r3.eax = v >>> 8 ∧
      r2.eax ||| (r3.eax <<< 8) = v ∧
      (r3.counter.get i).olbyte = 0 := by
  obtain ⟨c1, hc1, h2, _⟩ := latch_returns guest_hz t1 u1 (s.get i) hol hdiv
  obtain ⟨_, hl1, hl0⟩ := latch_captures guest_hz t1 u1 (s.get i) c1 hol hc1
  generalize hv : lval c1.initial
      (delta_ticks (if (s.get i).initial = 0 ∨ (s.get i).initial = 1 then u1 else t1) c1.tv)
      = v at hl1 hl0
  have hv16 : v < 65536 := by
    rw [← hv]
    simpa using lval_lt _ _
  have h10 : ¬ ((1 : Int) = 0 ∨ (1 : Int) = 2) := by decide
  have hlow : v % 256 = v &&& 0xff := (Nat.and_pow_two_sub_one_eq_mod v 8).symm
  have hhigh : (v >>> 8) % 256 = v >>> 8 := by
    rw [Nat.shiftRight_eq_div_pow]
    omega
  have a1 := handler_ctl_latch guest_hz t1 u1 s i hi lw hlsel hlrw
  rw [hc1] at a1
  have a2 := handler_read guest_hz t2 u2 (s.set i c1) i hi rd hrd e2
  simp only [get_set_same, set_set, h2, or_true, if_true] at a2
  have a3 := handler_read guest_hz t3 u3 (s.set i { c1 with olbyte := 1 }) i hi rd hrd e3
  simp only [get_set_same, set_set, h10, if_true, if_false] at a3
  refine ⟨c1, v, _, _, hc1, a1, hv.symm, h2, a2, a3, rfl, rfl, ?_, ?_, ?_, ?_⟩
  · simp only [hl1, hlow]
  · simp only [hl0, hhigh]
  · simp only [hl1, hl0]
    exact bytes_or v hv16
  · simp only [get_set_same]

/-- Witness for C11: channel 0 programmed with divisor 1193 at 10.5 s, latched 500
microseconds later: the count 597 = 0x0255 is read back as 0x55, 0x02. -/
theorem latch_read_roundtrip_witness :
    ∃ (c1 : counter) (v : Nat) (r2 r3 : io_result),
      latch 100 ⟨10, 500500⟩ ⟨10, 500500⟩ (pit_1193.get 0) = .ok c1 ∧
      v = lval c1.initial (delta_ticks ⟨10, 500500⟩ c1.tv) ∧
      pit_8254_handler 100 ⟨11, 0⟩ ⟨11, 0⟩ (pit_1193.set 0 c1) 1 (data_port 0) 1 0 = .ok r2 ∧
      pit_8254_handler 100 ⟨12, 0⟩ ⟨12, 0⟩ r2.counter 1 (data_port 0) 1 0 = .ok r3 ∧
      r2.eax ||| (r3.eax <<< 8) = v ∧
      (r3.counter.get 0).olbyte = 0 := by
  obtain ⟨c1, v, r2, r3, h1, _, h2, _, h3, h4, _, _, _, _, h5, h6⟩ :=
    latch_read_roundtrip 100 ⟨10, 500500⟩ ⟨10, 500500⟩ ⟨11, 0⟩ ⟨11, 0⟩ ⟨12, 0⟩ ⟨12, 0⟩
      pit_1193 0 (by decide) 0x00 (by decide) (by decide) 1 (by decide) 0 0 rfl
      (Or.inl (by decide))
  exact ⟨c1, v, r2, r3, h1, h2, h3, h4, h5, h6⟩

/-- C12, counterexample: on channel 0 holding a latched count (`olbyte = 2`), after a
first program byte (`crbyte = 1`, `olbyte = 2`), the data-port write of the second
program byte loads the new divisor 0x2010 and leaves `olbyte = 2`, not 0, with the old
latched bytes still in `ol`. -/
theorem program_keeps_latch_counterexample :
    ∃ r1 r2 : io_result,
      pit_8254_handler 100 ⟨11, 0⟩ ⟨11, 0⟩ pit_latched 0 (data_port 0) 1 0x10 = .ok r1 ∧
      (r1.counter.get 0).crbyte = 1 ∧ (r1.counter.get 0).olbyte = 2 ∧
      pit_8254_handler 100 ⟨12, 0⟩ ⟨12, 0⟩ r1.counter 0 (data_port 0) 1 0x20 = .ok r2 ∧
      (r2.counter.get 0).initial = 0x2010 ∧
      (r2.counter.get 0).olbyte = 2 ∧ (r2.counter.get 0).olbyte ≠ 0 ∧
      (r2.counter.get 0).ol1 = 0x55 ∧ (r2.counter.get 0).ol0 = 0x02 :=
  ⟨_, _, rfl, rfl, rfl, rfl, rfl, rfl, by decide, rfl, rfl⟩

/-- C12, amended: completing a two-byte divisor program does not touch the output
latch. For every channel state with `crbyte = 1` and any `olbyte`, the data-port write
of the second program byte `hi` returns 0, stores `hi` in `cr[1]`, loads the divisor
`cr[0] | (hi << 8)` truncated to 16 bits (0xffff when that is 0), sets the load instant
to the time of the write, resets `crbyte` to 0 and leaves `olbyte`, the latched bytes
`ol`, `cr[0]` and the other two counters as they were. When a latch is pending
(`olbyte ≠ 0`) the next latch command therefore captures nothing and leaves the device
unchanged; when none is pending (`olbyte = 0`) and the new divisor is at least 2, the
next latch command captures a fresh count computed from the new divisor and the ticks
elapsed since the write. -/
theorem program_keeps_latch (guest_hz : Int) (t1 u1 t2 u2 : timeval) (s : pit_state)
    (i : Nat) (hi : i < 3) (eax : Nat) (hcr : (s.get i).crbyte = 1)
    (lw : Nat) (hlsel : lw % 256 &&& TIMER_SEL_MASK = i <<< 6)
    (hlrw : lw % 256 &&& TIMER_RW_MASK = TIMER_LATCH) :
    ∃ r : io_result,
      pit_8254_handler guest_hz t1 u1 s 0 (data_port i) 1 eax = .ok r ∧
      r.ret = 0 ∧
      (r.counter.get i).initial
        = (if ((s.get i).cr0 ||| ((eax % 256) <<< 8)) % 2 ^ 16 = 0 then 0xffff
           else ((s.get i).cr0 ||| ((eax % 256) <<< 8)) % 2 ^ 16) ∧
      (r.counter.get i).tv = t1 ∧
      (r.counter.get i).crbyte = 0 ∧
      (r.counter.get i).cr0 = (s.get i).cr0 ∧
      (r.counter.get i).cr1 = eax % 256 ∧
      (r.counter.get i).olbyte = (s.get i).olbyte ∧
      (r.counter.get i).ol0 = (s.get i).ol0 ∧
      (r.counter.get i).ol1 = (s.get i).ol1 ∧
      (∀ j : Nat, j < 3 → j ≠ i → r.counter.get j = s.get j) ∧
      ((s.get i).olbyte ≠ 0 →
        pit_8254_handler guest_hz t2 u2 r.counter 0 TIMER_MODE 1 lw
          = .ok ⟨0, lw, r.counter⟩) ∧
      ((s.get i).olbyte = 0 → 2 ≤ (r.counter.get i).initial →
        pit_8254_handler guest_hz t2 u2 r.counter 0 TIMER_MODE 1 lw
          = .ok ⟨0, lw, r.counter.set i
              { r.counter.get i with
                olbyte := 2
                ol1 := lval (r.counter.get i).initial (delta_ticks t2 t1) % 256
                ol0 := (lval (r.counter.get i).initial (delta_ticks t2 t1) >>> 8) % 256 }⟩) := by
  have a1 := handler_write_second guest_hz t1 u1 s i hi eax hcr
  have hmod : eax % 256 % 2 ^ 16 = eax % 256 := by omega
  rw [hmod] at a1
  refine ⟨_, a1, rfl, ?_, ?_, ?_, ?_, ?_, ?_, ?_, ?_, fun j hj hji => ?_, fun hne => ?_,
    fun hol hD => ?_⟩
  · simp only [get_set_same]
  · simp only [get_set_same]
  · simp only [get_set_same]
  · simp only [get_set_same]
  · simp only [get_set_same]
  · simp only [get_set_same]
  · simp only [get_set_same]
  · simp only [get_set_same]
  · exact get_set_other s _ hi hj hji
  · rw [handler_ctl_latch guest_hz t2 u2 _ i hi lw hlsel hlrw]
    simp only [get_set_same]
    rw [latch_pending]
    · simp only [set_set]
    · exact hne
  · rw [handler_ctl_latch guest_hz t2 u2 _ i hi lw hlsel hlrw]
    simp only [get_set_same] at hD ⊢
    rw [latch_programmed]
    · exact hol
    · exact hD

/-- Witness for C12 (amended): the second program byte 0x20 written to channel 0 (first
byte 0x10 already in `cr[0]`) while the count 0x0255 is latched: the divisor 0x2010 is
loaded, the latch stays pending and the next latch command changes nothing. -/
theorem program_keeps_latch_witness :
    ∃ r : io_result,
      pit_8254_handler 100 ⟨12, 0⟩ ⟨12, 0⟩
          (pit_latched.set 0 { counter_latched with cr0 := 0x10, crbyte := 1 }) 0
          (data_port 0) 1 0x20 = .ok r ∧
      (r.counter.get 0).initial = 0x2010 ∧
      (r.counter.get 0).tv = ⟨12, 0⟩ ∧
      (r.counter.get 0).crbyte = 0 ∧
      (r.counter.get 0).olbyte = 2 ∧
      (r.counter.get 0).ol0 = 0x02 ∧
      (r.counter.get 0).ol1 = 0x55 ∧
      pit_8254_handler 100 ⟨13, 0⟩ ⟨13, 0⟩ r.counter 0 TIMER_MODE 1 0x00
        = .ok ⟨0, 0x00, r.counter⟩ := by
  obtain ⟨r, h1, _, h2, h3, h4, _, _, h5, h6, h7, _, h8, _⟩ :=
    program_keeps_latch 100 ⟨12, 0⟩ ⟨12, 0⟩ ⟨13, 0⟩ ⟨13, 0⟩
      (pit_latched.set 0 { counter_latched with cr0 := 0x10, crbyte := 1 }) 0 (by decide)
      0x20 rfl 0x00 (by decide) (by decide)
  exact ⟨r, h1, h2, h3, h4, h5, h6, h7, h8 (by decide)⟩

/-- C13, counterexample: with `guest_hz = 2386365` (which is `≥ 1`) the default divisor
`(1193182 + guest_hz / 2) / guest_hz` is 0, and `latch` on the never-programmed counter
with no latch pending divides by zero at `delta_ticks % c->initial` instead of latching
a count. -/
theorem latch_default_divisor_counterexample :
    (1 : Int) ≤ 2386365 ∧
    counter_zero.olbyte = 0 ∧ counter_zero.initial = 0 ∧
    ((TIMER_DIV PIT_8254_FREQ 2386365) % 2 ^ 16).toNat = 0 ∧
    latch 2386365 ⟨10, 0⟩ ⟨10, 0⟩ counter_zero = .error .div_by_zero :=
  ⟨by decide, rfl, rfl, by decide, rfl⟩

/-- C13, amended: for every counter with no latch pending whose divisor is 0 or 1, and
every `guest_hz` with `1 ≤ guest_hz ≤ 2386364`, `latch` at time `now` returns, replaces
the divisor by `(1193182 + guest_hz / 2) / guest_hz` truncated to 16 bits, which is not
zero, and sets the load instant to `now`; when the second time reading equals `now`
the latched count (low byte in `ol[1]`, high byte in `ol[0]`) equals that new divisor. -/
theorem latch_default_divisor (guest_hz : Int) (now now2 : timeval) (c : counter)
    (hol : c.olbyte = 0) (hD : c.initial = 0 ∨ c.initial = 1)
    (h1 : 1 ≤ guest_hz) (h2 : guest_hz ≤ 2386364) :
    ∃ c1 : counter,
      latch guest_hz now now2 c = .ok c1 ∧
      c1.initial = ((1193182 + guest_hz / 2) / guest_hz % 2 ^ 16).toNat ∧
      c1.initial ≠ 0 ∧
      c1.tv = now ∧
      c1.olbyte = 2 ∧
      (now2 = now →
        c1.ol1 = c1.initial % 256 ∧ c1.ol0 = c1.initial >>> 8 ∧
        c1.ol1 ||| (c1.ol0 <<< 8) = c1.initial) := by
  have hne := default_divisor_ne_zero guest_hz h1 h2
  have hhz : guest_hz ≠ 0 := by omega
  have e := latch_unprogrammed guest_hz now now2 c hol hD hhz hne
  have hlt : (TIMER_DIV PIT_8254_FREQ guest_hz % 2 ^ 16).toNat < 65536 := by
    have := Int.emod_lt_of_pos (TIMER_DIV PIT_8254_FREQ guest_hz)
      (show (0 : Int) < 2 ^ 16 by decide)
    omega
  refine ⟨_, e, ?_, hne, rfl, rfl, fun h => ?_⟩
  · simp only [TIMER_DIV_eq guest_hz h1]
  · subst h
    have hl : lval (TIMER_DIV PIT_8254_FREQ guest_hz % 2 ^ 16).toNat (delta_ticks now2 now2)
        = (TIMER_DIV PIT_8254_FREQ guest_hz % 2 ^ 16).toNat := by
      rw [delta_ticks_self, lval_eq (by omega) hlt, Nat.zero_mod]
      omega
    simp only [hl]
    have hhigh : ((TIMER_DIV PIT_8254_FREQ guest_hz % 2 ^ 16).toNat >>> 8) % 256
        = (TIMER_DIV PIT_8254_FREQ guest_hz % 2 ^ 16).toNat >>> 8 := by
      rw [Nat.shiftRight_eq_div_pow]
      omega
    refine ⟨trivial, hhigh, ?_⟩
    exact bytes_or _ hlt

/-- Witness for C13 (amended): `guest_hz = 100` on the never-programmed counter gives the
divisor 11932 = 0x2E9C, latched as such when no time elapses inside the call. -/
theorem latch_default_divisor_witness :
    ∃ c1 : counter,
      latch 100 ⟨10, 0⟩ ⟨10, 0⟩ counter_zero = .ok c1 ∧
      c1.initial = 11932 ∧ c1.tv = ⟨10, 0⟩ ∧ c1.olbyte = 2 ∧
      c1.ol1 ||| (c1.ol0 <<< 8) = c1.initial := by
  obtain ⟨c1, h1, h2, _, h3, h4, h5⟩ :=
    latch_default_divisor 100 ⟨10, 0⟩ ⟨10, 0⟩ counter_zero rfl (Or.inl rfl) (by decide)
      (by decide)
  exact ⟨c1, h1, by rw [h2]; decide, h3, h4, (h5 rfl).2.2⟩

/-- C14, counterexample: channel 0 of the zero-initialised device programmed with
divisor 1193 (control word 0x34, bytes 0xA9, 0x04) at 10 s and latched 1000
microseconds later: 1193 ticks have elapsed, the count has just reloaded, and the two
reads reconstruct `v = 1193`. -/
theorem end_to_end_1193_counterexample :
    ∃ r1 r2 r3 r4 r5 r6 : io_result,
      pit_8254_handler 100 ⟨10, 0⟩ ⟨10, 0⟩ pit_zero 0 TIMER_MODE 1 0x34 = .ok r1 ∧
      pit_8254_handler 100 ⟨10, 0⟩ ⟨10, 0⟩ r1.counter 0 (data_port 0) 1 0xA9 = .ok r2 ∧
      pit_8254_handler 100 ⟨10, 0⟩ ⟨10, 0⟩ r2.counter 0 (data_port 0) 1 0x04 = .ok r3 ∧
      pit_8254_handler 100 ⟨10, 1000⟩ ⟨10, 1000⟩ r3.counter 0 TIMER_MODE 1 0x00 = .ok r4 ∧
      pit_8254_handler 100 ⟨10, 1000⟩ ⟨10, 1000⟩ r4.counter 1 (data_port 0) 1 0 = .ok r5 ∧
      pit_8254_handler 100 ⟨10, 1000⟩ ⟨10, 1000⟩ r5.counter 1 (data_port 0) 1 0 = .ok r6 ∧
      (r3.counter.get 0).initial = 1193 ∧
      elapsed_usecs ⟨10, 1000⟩ (r3.counter.get 0).tv = 1000 ∧
      delta_ticks ⟨10, 1000⟩ (r3.counter.get 0).tv = 1193 ∧
      r5.eax ||| (r6.eax <<< 8) = 1193 :=
  ⟨_, _, _, _, _, _, rfl, rfl, rfl, rfl, rfl, rfl, rfl, rfl, rfl, rfl⟩

/-- C14, amended: end-to-end on channel 0 programmed with divisor 1193 (control word
16-bit access and rate generator, bytes 0xA9, 0x04, starting from `crbyte = 0`) at time
`t3` and latched at time `t4`: the value `v` reconstructed from the two following reads
is `1193 - (elapsed_ticks mod 1193)`, so `1 ≤ v ≤ 1193` (hence `|v - 1193| < 1193`),
and `v = 1193` exactly when the elapsed tick count is a multiple of 1193; in particular
`v ≠ 1193` for every elapsed time from 1 to 999 microseconds. -/
theorem end_to_end_1193 (guest_hz : Int)
    (t1 u1 t2 u2 t3 u3 t4 u4 t5 u5 t6 u6 : timeval) (s : pit_state)
    (hcr : (s.get 0).crbyte = 0)
    (cw : Nat) (hsel : cw % 256 &&& TIMER_SEL_MASK = 0 <<< 6)
    (hrw : cw % 256 &&& TIMER_RW_MASK = TIMER_16BIT)
    (hmode : cw % 256 &&& TIMER_MODE_MASK = TIMER_RATEGEN)
    (lw : Nat) (hlsel : lw % 256 &&& TIMER_SEL_MASK = 0 <<< 6)
    (hlrw : lw % 256 &&& TIMER_RW_MASK = TIMER_LATCH)
    (rd : Int) (hrd : rd ≠ 0) (e5 e6 : Nat) :
    ∃ r1 r2 r3 r4 r5 r6 : io_result,
      pit_8254_handler guest_hz t1 u1 s 0 TIMER_MODE 1 cw = .ok r1 ∧
      pit_8254_handler guest_hz t2 u2 r1.counter 0 (data_port 0) 1 0xA9 = .ok r2 ∧
      pit_8254_handler guest_hz t3 u3 r2.counter 0 (data_port 0) 1 0x04 = .ok r3 ∧
      pit_8254_handler guest_hz t4 u4 r3.counter 0 TIMER_MODE 1 lw = .ok r4 ∧
      pit_8254_handler guest_hz t5 u5 r4.counter rd (data_port 0) 1 e5 = .ok r5 ∧
      pit_8254_handler guest_hz t6 u6 r5.counter rd (data_port 0) 1 e6 = .ok r6 ∧
      r5.eax ||| (r6.eax <<< 8) = 1193 - delta_ticks t4 t3 % 1193 ∧
      1 ≤ r5.eax ||| (r6.eax <<< 8) ∧ r5.eax ||| (r6.eax <<< 8) ≤ 1193 ∧
      (r5.eax ||| (r6.eax <<< 8) = 1193 ↔ delta_ticks t4 t3 % 1193 = 0) ∧
      (1 ≤ elapsed_usecs t4 t3 → elapsed_usecs t4 t3 ≤ 999 →
        r5.eax ||| (r6.eax <<< 8) ≠ 1193) := by
  obtain ⟨r1, r2, r3, r4, r5, r6, h1, h2, h3, h4, h5, h6, hv⟩ :=
    program_latch_read guest_hz t1 u1 t2 u2 t3 u3 t4 u4 t5 u5 t6 u6 s 0 (by decide) 1193
      (by decide) (by decide) hcr cw hsel hrw (Or.inl hmode) lw hlsel hlrw rd hrd e5 e6
  rw [lval_eq (show 0 < 1193 by decide) (by decide)] at hv
  have hm := Nat.mod_lt (delta_ticks t4 t3) (show 0 < 1193 by decide)
  refine ⟨r1, r2, r3, r4, r5, r6, h1, h2, h3, h4, h5, h6, hv, ?_, ?_, ?_, ?_⟩
  · omega
  · omega
  · omega
  · intro hlo hhi
    have hs := delta_ticks_small t4 t3 hlo hhi
    omega

/-- Witness for C14 (amended): channel 0 of the zero-initialised device programmed with
1193 at 10 s and latched 500 microseconds later reads back a value other than 1193. -/
theorem end_to_end_1193_witness :
    ∃ r1 r2 r3 r4 r5 r6 : io_result,
      pit_8254_handler 100 ⟨9, 0⟩ ⟨9, 0⟩ pit_zero 0 TIMER_MODE 1 0x34 = .ok r1 ∧
      pit_8254_handler 100 ⟨9, 0⟩ ⟨9, 0⟩ r1.counter 0 (data_port 0) 1 0xA9 = .ok r2 ∧
      pit_8254_handler 100 ⟨10, 0⟩ ⟨10, 0⟩ r2.counter 0 (data_port 0) 1 0x04 = .ok r3 ∧
      pit_8254_handler 100 ⟨10, 500⟩ ⟨10, 500⟩ r3.counter 0 TIMER_MODE 1 0x00 = .ok r4 ∧
      pit_8254_handler 100 ⟨11, 0⟩ ⟨11, 0⟩ r4.counter 1 (data_port 0) 1 0 = .ok r5 ∧
      pit_8254_handler 100 ⟨12, 0⟩ ⟨12, 0⟩ r5.counter 1 (data_port 0) 1 0 = .ok r6 ∧
      1 ≤ r5.eax ||| (r6.eax <<< 8) ∧ r5.eax ||| (r6.eax <<< 8) ≤ 1193 ∧
      r5.eax ||| (r6.eax <<< 8) ≠ 1193 := by
  obtain ⟨r1, r2, r3, r4, r5, r6, h1, h2, h3, h4, h5, h6, _, h7, h8, _, h9⟩ :=
    end_to_end_1193 100 ⟨9, 0⟩ ⟨9, 0⟩ ⟨9, 0⟩ ⟨9, 0⟩ ⟨10, 0⟩ ⟨10, 0⟩ ⟨10, 500⟩ ⟨10, 500⟩
      ⟨11, 0⟩ ⟨11, 0⟩ ⟨12, 0⟩ ⟨12, 0⟩ pit_zero rfl 0x34 (by decide) (by decide) (by decide)
      0x00 (by decide) (by decide) 1 (by decide) 0 0
  exact ⟨r1, r2, r3, r4, r5, r6, h1, h2, h3, h4, h5, h6, h7, h8, h9 (by decide) (by decide)⟩

/-- C15: index invariant. In every state reachable from the zero-initialised
three-counter state by handler calls with any arguments at any times, every counter has
`crbyte` in `{0, 1}` and `olbyte` in `{0, 1, 2}`; hence no further call of the handler,
with any arguments, ends on an array index out of range. -/
theorem reachable_index_invariant (guest_hz : Int) (s : pit_state)
    (h : reachable guest_hz s) :
    (∀ i : Nat,
      ((s.get i).crbyte = 0 ∨ (s.get i).crbyte = 1) ∧
      ((s.get i).olbyte = 0 ∨ (s.get i).olbyte = 1 ∨ (s.get i).olbyte = 2)) ∧
    (∀ (now now2 : timeval) (in_ port bytes : Int) (eax : Nat),
      pit_8254_handler guest_hz now now2 s in_ port bytes eax
        ≠ .error .index_out_of_range) := by
  have hs := reachable_wf guest_hz s h
  exact ⟨fun i => get_wf s hs i,
    fun now now2 in_ port bytes eax =>
      handler_no_index_fault guest_hz now now2 s in_ port bytes eax hs⟩

/-- Witness for C15: the state reached from the zero-initialised device by one data
write of 0xA9 to port 0x40. -/
theorem reachable_index_invariant_witness :
    (∀ i : Nat,
      (((pit_zero.set 0 { counter_zero with cr0 := 0xA9, crbyte := 1 }).get i).crbyte = 0 ∨
        ((pit_zero.set 0 { counter_zero with cr0 := 0xA9, crbyte := 1 }).get i).crbyte = 1) ∧
      (((pit_zero.set 0 { counter_zero with cr0 := 0xA9, crbyte := 1 }).get i).olbyte = 0 ∨
        ((pit_zero.set 0 { counter_zero with cr0 := 0xA9, crbyte := 1 }).get i).olbyte = 1 ∨
        ((pit_zero.set 0 { counter_zero with cr0 := 0xA9, crbyte := 1 }).get i).olbyte = 2)) ∧
    (∀ (now now2 : timeval) (in_ port bytes : Int) (eax : Nat),
      pit_8254_handler 100 now now2
          (pit_zero.set 0 { counter_zero with cr0 := 0xA9, crbyte := 1 }) in_ port bytes eax
        ≠ .error .index_out_of_range) :=
  reachable_index_invariant 100 (pit_zero.set 0 { counter_zero with cr0 := 0xA9, crbyte := 1 })
    (reachable.step pit_zero ⟨10, 0⟩ ⟨10, 0⟩ 0 (data_port 0) 1 0xA9
      ⟨0, 0xA9, pit_zero.set 0 { counter_zero with cr0 := 0xA9, crbyte := 1 }⟩
      reachable.init rfl)

/-- C16: the countdown never divides by zero. For every `guest_hz` with
`1 ≤ guest_hz ≤ 2386364` and every state reachable from the zero-initialised state, no
call of the handler ends on a division by zero, and `latch` on any of its counters at
any time returns; when it reaches the computation `delta_ticks % c->initial` (no latch
pending) the divisor `initial` it uses, which it leaves in the counter, is non-zero. -/
theorem latch_never_divides_by_zero (guest_hz : Int) (h1 : 1 ≤ guest_hz)
    (h2 : guest_hz ≤ 2386364) (s : pit_state) (h : reachable guest_hz s) :
    (∀ (now now2 : timeval) (in_ port bytes : Int) (eax : Nat),
      pit_8254_handler guest_hz now now2 s in_ port bytes eax ≠ .error .div_by_zero) ∧
    (∀ (i : Nat) (now now2 : timeval),
      ∃ c1 : counter, latch guest_hz now now2 (s.get i) = .ok c1 ∧
        ((s.get i).olbyte = 0 → c1.initial ≠ 0)) := by
  have hs := reachable_wf guest_hz s h
  have hne := default_divisor_ne_zero guest_hz h1 h2
  have hhz : guest_hz ≠ 0 := by omega
  have hlatch : ∀ (c : counter) (now now2 : timeval),
      ∃ c1 : counter, latch guest_hz now now2 c = .ok c1 ∧
        (c.olbyte = 0 → c1.initial ≠ 0) := by
    intro c now now2
    by_cases hol : c.olbyte = 0
    · obtain ⟨c1, hc1, _⟩ := latch_returns guest_hz now now2 c hol (Or.inr ⟨hhz, hne⟩)
      obtain ⟨_, _, _, h4⟩ := latch_ok_fields guest_hz now now2 c c1 hc1
      refine ⟨c1, hc1, fun _ => ?_⟩
      rcases h4 with ⟨h5, _⟩ | ⟨_, _, h5⟩
      · exact absurd hol h5
      · exact h5
    · exact ⟨c, latch_pending guest_hz now now2 c hol, fun h0 => absurd h0 hol⟩
  refine ⟨fun now now2 in_ port bytes eax hr => ?_, fun i now now2 => hlatch _ now now2⟩
  by_cases hb : bytes = 1
  · subst hb
    by_cases hl : legal_access in_ port
    · by_cases ha : accepted port 1 (eax % 256)
      · obtain ⟨r, hr2, _⟩ :=
          handler_accept_returns guest_hz now now2 s in_ port 1 eax hl ha hs hhz hne
        rw [hr2] at hr
        cases hr
      · rw [handler_reject guest_hz now now2 s in_ port 1 eax hl ha] at hr
        cases hr
    · rw [handler_illegal guest_hz now now2 s in_ port eax hl] at hr
      cases hr
  · rw [handler_width guest_hz now now2 s in_ port bytes eax hb] at hr
    cases hr

/-- Witness for C16: `guest_hz = 100` and the zero-initialised device, whose counters
are all unprogrammed. -/
theorem latch_never_divides_by_zero_witness :
    (∀ (now now2 : timeval) (in_ port bytes : Int) (eax : Nat),
      pit_8254_handler 100 now now2 pit_zero in_ port bytes eax ≠ .error .div_by_zero) ∧
    (∀ (i : Nat) (now now2 : timeval),
      ∃ c1 : counter, latch 100 now now2 (pit_zero.get i) = .ok c1 ∧
        ((pit_zero.get i).olbyte = 0 → c1.initial ≠ 0)) :=
  latch_never_divides_by_zero 100 (by decide) (by decide) pit_zero reachable.init

/-- C17, counterexample: for a load at 10 s and a latch at 11 s, one second
(`e = 10^9` ns) has elapsed and `delta_ticks` is 1193317, not
`floor (e * 1193182 / 10^9) = 1193182`. -/
theorem delta_ticks_counterexample :
    elapsed_usecs ⟨11, 0⟩ ⟨10, 0⟩ = 1000000 ∧
    delta_ticks ⟨11, 0⟩ ⟨10, 0⟩ = 1193317 ∧
    delta_ticks ⟨11, 0⟩ ⟨10, 0⟩ ≠ 1000000000 * 1193182 / 10 ^ 9 :=
  ⟨by decide, by decide, by decide⟩

/-- C17, amended: elapsed ticks are the elapsed nanoseconds divided by the integer
constant `nsecs_per_tick = 838` (the truncation of `10^9 / 1193182`). For every elapsed
time of `e` nanoseconds (`e` a non-negative multiple of 1000, below `2^64`), the
`delta_ticks` computed by `latch` equals `floor (e / 838)`; in particular one elapsed
second yields 1193317 ticks. -/
theorem delta_ticks_floor (now tv : timeval) (e : Nat)
    (he : (e : Int) = 1000 * elapsed_usecs now tv) (hfit : e < 2 ^ 64) :
    nsecs_per_tick = 838 ∧
    delta_ticks now tv = e / 838 ∧
    (e = 1000000000 → delta_ticks now tv = 1193317) := by
  have hd : delta_ticks now tv = e / 838 := by
    unfold delta_ticks
    rw [delta_nsecs_of_fits (by omega) (by omega), ← he]
    rfl
  refine ⟨rfl, hd, fun h => ?_⟩
  rw [hd, h]

/-- Witness for C17 (amended): load at 10.5 s, latch at 11.5 s. -/
theorem delta_ticks_floor_witness :
    delta_ticks ⟨11, 500000⟩ ⟨10, 500000⟩ = 1000000000 / 838 ∧
    delta_ticks ⟨11, 500000⟩ ⟨10, 500000⟩ = 1193317 :=
  ⟨(delta_ticks_floor ⟨11, 500000⟩ ⟨10, 500000⟩ 1000000000 (by decide) (by decide)).2.1,
   (delta_ticks_floor ⟨11, 500000⟩ ⟨10, 500000⟩ 1000000000 (by decide) (by decide)).2.2 rfl⟩

/-- C19: the three channels are independent. A returning call on the data port of
channel `i` leaves the other two counters as they were, and so does a returning call
on the control port whose select bits are `i` (`val >> 6 = i`, `i` in `{0, 1, 2}`):
at most counter `i` changes. -/
theorem channels_independent (guest_hz : Int) (now now2 : timeval) (s : pit_state)
    (i : Nat) (hi : i < 3) (in_ bytes : Int) (eax : Nat) (r : io_result) :
    (pit_8254_handler guest_hz now now2 s in_ (data_port i) bytes eax = .ok r →
      ∀ j : Nat, j < 3 → j ≠ i → r.counter.get j = s.get j) ∧
    ((eax % 256) >>> 6 = i →
      pit_8254_handler guest_hz now now2 s in_ 0x43 bytes eax = .ok r →
      ∀ j : Nat, j < 3 → j ≠ i → r.counter.get j = s.get j) := by
  constructor
  · intro hr j hj hji
    obtain ⟨c1, h1, _⟩ := handler_data_shape guest_hz now now2 s i hi in_ bytes eax r hr
    rw [h1]
    exact get_set_other s c1 hi hj hji
  · intro hsel hr j hj hji
    have hv : eax % 256 &&& 0xc0 = i <<< 6 := by
      rw [← hsel]
      exact sel_shift (eax % 256) (Nat.mod_lt _ (by decide))
    obtain ⟨c1, h1, _⟩ := handler_ctl_shape guest_hz now now2 s i hi in_ bytes eax hv r hr
    rw [h1]
    exact get_set_other s c1 hi hj hji

/-- Witness for C19: on the device with channel 0 programmed, a data write to channel 1
and a latch command for channel 1 leave channels 0 and 2 unchanged. -/
theorem channels_independent_witness :
    (∀ j : Nat, j < 3 → j ≠ 1 →
      (pit_1193.set 1 { counter_zero with cr0 := 0x10, crbyte := 1 }).get j
        = pit_1193.get j) ∧
    (∀ j : Nat, j < 3 → j ≠ 1 →
      (pit_1193.set 1 { counter_zero with initial := 11932, tv := ⟨11, 0⟩, olbyte := 2,
                                          ol1 := 0x9C, ol0 := 0x2E }).get j
        = pit_1193.get j) :=
  ⟨(channels_independent 100 ⟨11, 0⟩ ⟨11, 0⟩ pit_1193 1 (by decide) 0 1 0x10
      ⟨0, 0x10, pit_1193.set 1 { counter_zero with cr0 := 0x10, crbyte := 1 }⟩).1 rfl,
   (channels_independent 100 ⟨11, 0⟩ ⟨11, 0⟩ pit_1193 1 (by decide) 0 1 0x40
      ⟨0, 0x40, pit_1193.set 1 { counter_zero with initial := 11932, tv := ⟨11, 0⟩,
                                                   olbyte := 2, ol1 := 0x9C, ol0 := 0x2E }⟩).2
      (by decide) rfl⟩

/-- C20: an accepted non-latch control word (select bits not read-back, access mode
16-bit, mode rate generator or square wave) returns 0 and changes exactly one field of
the selected counter `i = val >> 6`: its `olbyte` becomes 0, while its `initial`, `tv`,
`cr[0..1]`, `crbyte` and `ol[0..1]` are unchanged, as are the other two counters. -/
theorem control_word_frame (guest_hz : Int) (now now2 : timeval) (s : pit_state)
    (eax : Nat) (hsel : eax % 256 &&& 0xc0 ≠ 0xc0) (hrw : eax % 256 &&& 0x30 = 0x30)
    (hmode : eax % 256 &&& 0x0f = 0x04 ∨ eax % 256 &&& 0x0f = 0x06) :
    (eax % 256) >>> 6 < 3 ∧
    pit_8254_handler guest_hz now now2 s 0 0x43 1 eax
      = .ok ⟨0, eax, s.set ((eax % 256) >>> 6)
          { s.get ((eax % 256) >>> 6) with olbyte := 0 }⟩ ∧
    ∀ r : io_result, pit_8254_handler guest_hz now now2 s 0 0x43 1 eax = .ok r →
      r.ret = 0 ∧
      (r.counter.get ((eax % 256) >>> 6)).olbyte = 0 ∧
      (r.counter.get ((eax % 256) >>> 6)).initial = (s.get ((eax % 256) >>> 6)).initial ∧
      (r.counter.get ((eax % 256) >>> 6)).tv = (s.get ((eax % 256) >>> 6)).tv ∧
      (r.counter.get ((eax % 256) >>> 6)).cr0 = (s.get ((eax % 256) >>> 6)).cr0 ∧
      (r.counter.get ((eax % 256) >>> 6)).cr1 = (s.get ((eax % 256) >>> 6)).cr1 ∧
      (r.counter.get ((eax % 256) >>> 6)).crbyte = (s.get ((eax % 256) >>> 6)).crbyte ∧
      (r.counter.get ((eax % 256) >>> 6)).ol0 = (s.get ((eax % 256) >>> 6)).ol0 ∧
      (r.counter.get ((eax % 256) >>> 6)).ol1 = (s.get ((eax % 256) >>> 6)).ol1 ∧
      ∀ j : Nat, j < 3 → j ≠ (eax % 256) >>> 6 → r.counter.get j = s.get j := by
  have hlt : eax % 256 < 256 := Nat.mod_lt _ (by decide)
  have hi := sel_index_lt (eax % 256) hlt hsel
  have hv : eax % 256 &&& 0xc0 = ((eax % 256) >>> 6) <<< 6 := sel_shift (eax % 256) hlt
  have e : pit_8254_handler guest_hz now now2 s 0 0x43 1 eax = _ :=
    handler_ctl_program guest_hz now now2 s ((eax % 256) >>> 6) hi eax hv hrw hmode
  refine ⟨hi, e, fun r hr => ?_⟩
  rw [e] at hr
  cases hr
  refine ⟨rfl, ?_, ?_, ?_, ?_, ?_, ?_, ?_, ?_, fun j hj hji => ?_⟩
  · simp only [get_set_same]
  · simp only [get_set_same]
  · simp only [get_set_same]
  · simp only [get_set_same]
  · simp only [get_set_same]
  · simp only [get_set_same]
  · simp only [get_set_same]
  · simp only [get_set_same]
  · exact get_set_other s _ hi hj hji

/-- Witness for C20: the control word 0x36 (channel 0, 16-bit access, square wave)
written while the count 0x0255 is latched on channel 0. -/
theorem control_word_frame_witness :
    pit_8254_handler 100 ⟨11, 0⟩ ⟨11, 0⟩ pit_latched 0 0x43 1 0x36
      = .ok ⟨0, 0x36, pit_latched.set 0 { counter_latched with olbyte := 0 }⟩ :=
  (control_word_frame 100 ⟨11, 0⟩ ⟨11, 0⟩ pit_latched 0x36 (by decide) (by decide)
    (Or.inr (by decide))).2.1

end Pit8254
